import Mathlib

/-!
# Verification of the DashDAQ CSV ingestion pipeline

Shallow embedding of the two `load_dashdaq_csv` entry points of the
DashDaq-Gui repository (`src/analyze_dashdaq.py` and `src/dashdaq_gui.py`)
and of the time-range helpers of `DashDAQViewer` in `src/dashdaq_gui.py`.

Modelling conventions:

* A document is a `List String` of line contents (newline characters are
  stripped; `str.strip()` removes them anyway, and the tabular region is
  re-split on newlines by `pd.read_csv`).
* Numeric cell values are modelled as `ℚ` (the claims under study concern
  exact arithmetic identities — subtraction of the minimum, division by
  1000, sign and inclusive-bound comparisons — all of which are
  float-representable statements; IEEE rounding, `inf`/`nan` literals and
  int64 overflow are outside the model).
* `pd.read_csv` is modelled on its defaults for this data: comma delimiter,
  double-quote quoting, blank-line skipping, the default NA token list,
  per-column dtype inference (int64 / float64 / object), empty header names
  replaced by `Unnamed: <i>`, short rows padded with NA, and a row with
  more fields than the header failing the parse.  Duplicate-column-name
  mangling, implicit index-column inference, `True`/`False` boolean
  columns and `inf`/`nan` numeric literals are not modelled; no concrete
  evaluation below exercises those corners.
* Failures (`raise ValueError`, `KeyError` escaping `load_dashdaq_csv`)
  are modelled with `Except LoadErr`.
-/

deriving instance DecidableEq for Except

/-! ## Character and string primitives (Python `str.strip`, CSV splitting) -/

/-- Whitespace characters removed by Python `str.strip()`. -/
def isSpaceChar (c : Char) : Bool :=
  c == ' ' || c == '\t' || c == '\n' || c == '\r' || c == '\x0b' || c == '\x0c'

/-- Python `s.strip()`, as a character list. -/
def pyTrim (s : String) : List Char :=
  ((s.toList.dropWhile isSpaceChar).reverse.dropWhile isSpaceChar).reverse

/-- `startsWithL l pat` : does `l` start with the pattern `pat`? -/
def startsWithL : List Char → List Char → Bool
  | _, [] => true
  | [], _ :: _ => false
  | a :: as, b :: bs => a == b && startsWithL as bs

/-- Split a character list at every separator recognised by `p`
(the separators are dropped; always returns at least one piece). -/
def splitBy (p : Char → Bool) : List Char → List (List Char)
  | [] => [[]]
  | c :: rest =>
    match splitBy p rest with
    | h :: t => if p c then [] :: h :: t else (c :: h) :: t
    | [] => [[]]

/-- Value of a digit string (most significant first). -/
def digitsValL (l : List Char) : Nat :=
  l.foldl (fun a c => a * 10 + (c.toNat - 48)) 0

/-- Nonempty and all decimal digits. -/
def allDigits (l : List Char) : Bool :=
  !l.isEmpty && l.all Char.isDigit

/-! ## Numeric parsing

One grammar serves the three numeric conversions of the source —
`pd.read_csv` dtype inference, `pd.to_numeric(errors="coerce")` and Python
`float()` — on their common fragment: optional sign, decimal digits with an
optional decimal point, optional exponent, surrounding whitespace ignored.
-/

/-- Signed decimal integer (grammar of a pandas int64 cell). -/
def parseIntL : List Char → Option ℤ
  | '-' :: rest => if allDigits rest then some (-(digitsValL rest : ℤ)) else none
  | '+' :: rest => if allDigits rest then some ((digitsValL rest : ℤ)) else none
  | l => if allDigits l then some ((digitsValL l : ℤ)) else none

/-- Signed integer parse of a whole (stripped) string. -/
def parseIntStr (s : String) : Option ℤ :=
  parseIntL (pyTrim s)

/-- Unsigned decimal mantissa: `digits`, `digits.digits`, `digits.` or `.digits`. -/
def parseDecL (l : List Char) : Option ℚ :=
  match splitBy (fun c => c == '.') l with
  | [i] => if allDigits i then some ((digitsValL i : ℚ)) else none
  | [i, f] =>
    if i.isEmpty && f.isEmpty then none
    else if i.all Char.isDigit && f.all Char.isDigit then
      some ((digitsValL i : ℚ) + (digitsValL f : ℚ) / ((10 : ℚ) ^ f.length))
    else none
  | _ => none

/-- Signed mantissa. -/
def parseSignedL : List Char → Option ℚ
  | '-' :: rest => (parseDecL rest).map (fun q => -q)
  | '+' :: rest => parseDecL rest
  | l => parseDecL l

/-- Mantissa with optional `e`/`E` exponent. -/
def parseFloatL (l : List Char) : Option ℚ :=
  match splitBy (fun c => c == 'e' || c == 'E') l with
  | [m] => parseSignedL m
  | [m, ex] =>
    match parseSignedL m, parseIntL ex with
    | some q, some z => some (q * (10 : ℚ) ^ z)
    | _, _ => none
  | _ => none

/-- Locale-invariant numeric parse of a cell: integer or floating point,
surrounding whitespace ignored; `none` on failure. -/
def parseNum (s : String) : Option ℚ :=
  match parseIntStr s with
  | some n => some ((n : ℚ))
  | none => parseFloatL (pyTrim s)

/-! ## pandas NA tokens and dtype inference -/

/-- The default `pd.read_csv` NA token list (exact match on the raw field). -/
def naStrings : List String :=
  ["", "#N/A", "#N/A N/A", "#NA", "-1.#IND", "-1.#QNAN", "-NaN", "-nan",
   "1.#IND", "1.#QNAN", "<NA>", "N/A", "NA", "NULL", "NaN", "None",
   "n/a", "nan", "null"]

/-- Is the raw field one of the default NA tokens? -/
def isNA (s : String) : Bool :=
  naStrings.any (fun t => t == s)

/-- Inferred dtype of a parsed column: int64, float64 or object. -/
inductive ColMode where
  | intM
  | floatM
  | objM
deriving DecidableEq

/-- A cell of a `pd.read_csv` result: an int64 value, a float64 value,
NaN, or a Python string (object column). -/
inductive CellVal where
  | intv (n : ℤ)
  | fl (q : ℚ)
  | na
  | txt (s : String)
deriving DecidableEq

/-- Column dtype inference: int64 when every raw field is a signed integer,
float64 when every raw field is an NA token or parses numerically,
object otherwise. -/
def colMode (col : List String) : ColMode :=
  if col.all (fun s => (parseIntStr s).isSome) then .intM
  else if col.all (fun s => isNA s || (parseNum s).isSome) then .floatM
  else .objM

/-- Value stored for one raw field in a column of the given dtype. -/
def inferCell : ColMode → String → CellVal
  | .intM, s =>
    match parseIntStr s with
    | some n => .intv n
    | none => .txt s
  | .floatM, s =>
    if isNA s then .na else
      match parseNum s with
      | some q => .fl q
      | none => .txt s
  | .objM, s => if isNA s then .na else .txt s

/-- Is the cell a Python `str` (the `isinstance(..., str)` test of
`analyze_dashdaq.py` line 58)? -/
def isTxtCell : CellVal → Bool
  | .txt _ => true
  | _ => false

/-! ## CSV tokenisation (`pd.read_csv` record splitting) -/

/-- Split one record into comma-delimited fields with double-quote quoting:
a quote opens only at field start, `""` inside quotes is a literal quote,
text after a closing quote is appended to the field. -/
def csvFields : List Char → Bool → List Char → List String
  | [], _, cur => [String.mk cur]
  | '"' :: '"' :: rest, true, cur => csvFields rest true (cur ++ ['"'])
  | '"' :: rest, true, cur => csvFields rest false cur
  | '"' :: rest, false, cur =>
    if cur.isEmpty then csvFields rest true cur
    else csvFields rest false (cur ++ ['"'])
  | ',' :: rest, true, cur => csvFields rest true (cur ++ [','])
  | ',' :: rest, false, cur => String.mk cur :: csvFields rest false []
  | c :: rest, inQ, cur => csvFields rest inQ (cur ++ [c])

/-- Fields of one CSV record. -/
def csvSplit (s : String) : List String :=
  csvFields s.toList false []

/-- Header names: an empty header field at position `j` becomes
`Unnamed: j` (the pandas placeholder produced by a trailing comma). -/
def colNames : Nat → List String → List String
  | _, [] => []
  | j, f :: fs =>
    (if f == "" then "Unnamed: " ++ toString j else f) :: colNames (j + 1) fs

/-- Pad each data record to `n` fields with empty (NA) cells; `none` when a
record has more fields than the header (the pandas tokenizer error). -/
def padRows (n : Nat) : List String → Option (List (List String))
  | [] => some []
  | l :: ls =>
    let fs := csvSplit l
    if fs.length ≤ n then
      match padRows n ls with
      | some rs => some ((fs ++ List.replicate (n - fs.length) "") :: rs)
      | none => none
    else none

/-! ## The data frame model -/

/-- Structural load failures. -/
inductive LoadErr where
  /-- No line whose stripped content starts with `"Time"` (the
  `ValueError` of both entry points). -/
  | headerNotFound
  /-- The tabular region is empty (unreachable from the entry points:
  the header index always points at a line). -/
  | emptyRegion
  /-- A data record has more fields than the header (pandas tokenizer
  error). -/
  | tooManyFields
  /-- `df.loc[0, col]` raised: no row with label 0, or no such column. -/
  | keyError
deriving DecidableEq

/-- A pandas data frame: ordered column names and row-major cells. -/
structure DF (α : Type) where
  cols : List String
  rows : List (List α)
deriving DecidableEq

/-- A data frame after full numeric coercion (`NaN` = `none`). -/
abbrev NumDF := DF (Option ℚ)

/-- Raw tabular region → header names and padded string records. -/
def rawGrid (region : List String) : Except LoadErr (List String × List (List String)) :=
  match region with
  | [] => .error .emptyRegion
  | hdr :: rest =>
    let cols := colNames 0 (csvSplit hdr)
    match padRows cols.length (rest.filter (fun l => l != "")) with
    | none => .error .tooManyFields
    | some rows => .ok (cols, rows)

/-- `j`-th raw column of the record grid. -/
def colStrs (rows : List (List String)) (j : Nat) : List String :=
  rows.map (fun r => r.getD j "")

/-- Inferred dtypes of the columns `cols`, starting at column index `j`. -/
def modesAux (rows : List (List String)) : Nat → List String → List ColMode
  | _, [] => []
  | j, _ :: cs => colMode (colStrs rows j) :: modesAux rows (j + 1) cs

/-- Apply dtype inference to every record. -/
def inferRows (cols : List String) (rows : List (List String)) : List (List CellVal) :=
  rows.map (fun r => List.zipWith inferCell (modesAux rows 0 cols) r)

/-- `pd.read_csv` on the tabular region. -/
def readCSV (region : List String) : Except LoadErr (DF CellVal) :=
  match rawGrid region with
  | .error e => .error e
  | .ok (cols, rows) => .ok ⟨cols, inferRows cols rows⟩

/-! ## Column access and the shared cleaning steps -/

/-- `cols.contains name` via `==` (the Python `name in df.columns` test). -/
def hasCol (cols : List String) (name : String) : Bool :=
  cols.any (fun c => c == name)

/-- Cell of one row under the first column named `name` (label lookup). -/
def rowCell : List String → List α → String → Option α
  | c :: cs, v :: vs, name => if c == name then some v else rowCell cs vs name
  | _, _, _ => none

/-- `df.loc[0, name]`: first row's cell under column `name`
(`none` models the `KeyError` when the row or the column is missing). -/
def loc0 (df : DF α) (name : String) : Option α :=
  match df.rows with
  | [] => none
  | r :: _ => rowCell df.cols r name

/-- Does the column name match the placeholder pattern
(`df.columns.str.startswith("Unnamed")`)? -/
def unnamedCol (c : String) : Bool :=
  startsWithL c.toList "Unnamed".toList

/-- Cells of one row surviving the placeholder-column mask, in lock-step
with the surviving column names. -/
def dropRowCells : List String → List α → List α
  | c :: cs, v :: vs =>
    if unnamedCol c then dropRowCells cs vs else v :: dropRowCells cs vs
  | _, _ => []

/-- `df.loc[:, ~df.columns.str.startswith("Unnamed")]`
(lines 53-54 of `analyze_dashdaq.py`, 52-53 of `dashdaq_gui.py`). -/
def dropUnnamed (df : DF α) : DF α :=
  ⟨df.cols.filter (fun c => !unnamedCol c),
   df.rows.map (fun r => dropRowCells df.cols r)⟩

/-- `df.iloc[1:].reset_index(drop=True)`. -/
def dropRow0 (df : DF α) : DF α :=
  ⟨df.cols, df.rows.tail⟩

/-- `pd.to_numeric(cell, errors="coerce")`: numeric cells pass through,
NaN stays missing, text is parsed and becomes missing on failure. -/
def coerceCell : CellVal → Option ℚ
  | .intv n => some ((n : ℚ))
  | .fl q => some q
  | .na => none
  | .txt s => parseNum s

/-- The per-column coercion loop (lines 61-63 of both files). -/
def coerceDF (df : DF CellVal) : NumDF :=
  ⟨df.cols, df.rows.map (fun r => r.map coerceCell)⟩

/-- Values of the first column named `name` (`df[name]`); a missing column
yields missing cells (only used under a `hasCol` guard, as in the source). -/
def colQ (df : NumDF) (name : String) : List (Option ℚ) :=
  df.rows.map (fun r =>
    match rowCell df.cols r name with
    | some v => v
    | none => none)

/-- Skip-NA minimum of a numeric column (`Series.min()`). -/
def colMin : List (Option ℚ) → Option ℚ
  | [] => none
  | none :: t => colMin t
  | some v :: t =>
    match colMin t with
    | none => some v
    | some m => some (min v m)

/-- `(t - t.min()) / 1000.0` elementwise; with no non-missing value the
minimum is NaN and every result is missing. -/
def deriveTimeS (tc : List (Option ℚ)) : List (Option ℚ) :=
  match colMin tc with
  | none => tc.map (fun _ => (none : Option ℚ))
  | some m => tc.map (Option.map (fun v => (v - m) / 1000))

/-- Replace the first matching column cell of one row. -/
def setRow : List String → List (Option ℚ) → String → Option ℚ → List (Option ℚ)
  | c :: cs, x :: xs, name, v =>
    if c == name then v :: xs else x :: setRow cs xs name v
  | _, _, _, _ => []

/-- `df[name] = vals`: overwrite the column when it exists, else append it. -/
def setColN (df : NumDF) (name : String) (vals : List (Option ℚ)) : NumDF :=
  if hasCol df.cols name then
    ⟨df.cols, List.zipWith (fun r v => setRow df.cols r name v) df.rows vals⟩
  else
    ⟨df.cols ++ [name], List.zipWith (fun r v => r ++ [v]) df.rows vals⟩

/-- Lines 66-68 of `analyze_dashdaq.py` / 66-69 of `dashdaq_gui.py`:
derive `Time_s` from `Time` when a `Time` column is present. -/
def addTimeS (df : NumDF) : NumDF :=
  if hasCol df.cols "Time" then
    setColN df "Time_s" (deriveTimeS (colQ df "Time"))
  else df

/-! ## Python `str()` of a cell (the units map of `dashdaq_gui.py`) -/

/-- Smallest `k ≤ 17` with `den ∣ 10^k` (terminating decimal expansion). -/
def decExp (den : Nat) : Option Nat :=
  (List.range 18).find? (fun k => 10 ^ k % den == 0)

/-- Drop trailing zero digits, keeping at least one digit. -/
def stripTrailingZeros (s : String) : String :=
  match s.toList.reverse.dropWhile (fun c => c == '0') with
  | [] => "0"
  | l => String.mk l.reverse

/-- Left-pad with zero digits to `k` characters. -/
def padZeros (k : Nat) (s : String) : String :=
  String.mk (List.replicate (k - s.length) '0') ++ s

/-- Python `str()` of a float64 value, on terminating decimals
(e.g. `5 ↦ "5.0"`, `45.2 ↦ "45.2"`); cells produced by the numeric parsers
above always terminate, a fraction rendering is the fallback. -/
def floatStr (q : ℚ) : String :=
  let sgn := if q < 0 then "-" else ""
  let a := |q|
  match decExp a.den with
  | some k =>
    if k == 0 then sgn ++ toString a.num ++ ".0"
    else
      let scaled : Nat := a.num.natAbs * 10 ^ k / a.den
      sgn ++ toString (scaled / 10 ^ k) ++ "." ++
        stripTrailingZeros (padZeros k (toString (scaled % 10 ^ k)))
  | none => sgn ++ toString a.num ++ "/" ++ toString a.den

/-- Python `str()` of a cell value. -/
def pyStr : CellVal → String
  | .intv n => toString n
  | .fl q => floatStr q
  | .na => "nan"
  | .txt s => s

/-- Python dict assignment `d[k] = v` on an insertion-ordered map. -/
def dictSet (d : List (String × String)) (k v : String) : List (String × String) :=
  if d.any (fun p => p.1 == k) then
    d.map (fun p => if p.1 == k then (k, v) else p)
  else d ++ [(k, v)]

/-! ## Header location and the two entry points -/

/-- Does the stripped line start with the quoted token `"Time"`? -/
def isHeaderLine (l : String) : Bool :=
  startsWithL (pyTrim l) "\"Time\"".toList

/-- Index of the first header line (lines 38-42 / 40-44). -/
def findHeader : List String → Option Nat
  | [] => none
  | l :: ls => if isHeaderLine l then some 0 else (findHeader ls).map (· + 1)

/-- Units-row step of `analyze_dashdaq.py` (lines 56-59): inspect
`df.loc[0, "Time"]` and drop the first row when it is a string. -/
def unitsRowA (df1 : DF CellVal) : Except LoadErr (DF CellVal) :=
  match loc0 df1 "Time" with
  | none => .error .keyError
  | some c => .ok (if isTxtCell c then dropRow0 df1 else df1)

/-- `load_dashdaq_csv` of `analyze_dashdaq.py` from the header line on. -/
def loadRegionA (region : List String) : Except LoadErr NumDF :=
  match readCSV region with
  | .error e => .error e
  | .ok df0 =>
    match unitsRowA (dropUnnamed df0) with
    | .error e => .error e
    | .ok df2 => .ok (addTimeS (coerceDF df2))

/-- `load_dashdaq_csv` of `analyze_dashdaq.py`. -/
def loadAnalyze (doc : List String) : Except LoadErr NumDF :=
  match findHeader doc with
  | none => .error .headerNotFound
  | some k => loadRegionA (doc.drop k)

/-- Units-row step of `dashdaq_gui.py` (lines 56-59): when a `Time` column
exists, capture `str(df.loc[0, col])` for every column and drop the first
row unconditionally; `KeyError` when there is no first row. -/
def unitsRowG (df1 : DF CellVal) :
    Except LoadErr (DF CellVal × List (String × String)) :=
  if hasCol df1.cols "Time" then
    match df1.rows with
    | [] => .error .keyError
    | r0 :: rest =>
      .ok (⟨df1.cols, rest⟩,
        df1.cols.map (fun c => (c, pyStr ((rowCell df1.cols r0 c).getD .na))))
  else .ok (df1, [])

/-- `load_dashdaq_csv` of `dashdaq_gui.py` from the header line on. -/
def loadRegionG (region : List String) :
    Except LoadErr (NumDF × List (String × String)) :=
  match readCSV region with
  | .error e => .error e
  | .ok df0 =>
    match unitsRowG (dropUnnamed df0) with
    | .error e => .error e
    | .ok (df2, units0) =>
      let dfc := coerceDF df2
      if hasCol dfc.cols "Time" then
        .ok (addTimeS dfc, dictSet units0 "Time_s" "s")
      else .ok (dfc, units0)

/-- `load_dashdaq_csv` of `dashdaq_gui.py`. -/
def loadGUI (doc : List String) :
    Except LoadErr (NumDF × List (String × String)) :=
  match findHeader doc with
  | none => .error .headerNotFound
  | some k => loadRegionG (doc.drop k)

/-! ## Viewer time helpers (`dashdaq_gui.py`) -/

/-- `DashDAQViewer._time_column` (lines 442-449): `Time_s` when present,
else `Time`, else none. -/
def timeColumn (df : NumDF) : Option String :=
  if hasCol df.cols "Time_s" then some "Time_s"
  else if hasCol df.cols "Time" then some "Time"
  else none

/-- `Series.dropna()`. -/
def dropna (l : List (Option ℚ)) : List ℚ :=
  l.filterMap id

/-- Minimum of a nonempty series. -/
def foldMin : List ℚ → Option ℚ
  | [] => none
  | h :: t => some (t.foldl min h)

/-- Maximum of a nonempty series. -/
def foldMax : List ℚ → Option ℚ
  | [] => none
  | h :: t => some (t.foldl max h)

/-- Lines 505-533 of `_get_time_range`, given the data extent: blank or
non-numeric entries fall back to the full extent; numeric bounds are
swapped when reversed, replaced by the full extent when the requested
interval lies entirely outside the data, and clamped otherwise. -/
def clampRange (fullMin fullMax : ℚ) (startStr endStr : String) : ℚ × ℚ :=
  if (pyTrim startStr).isEmpty || (pyTrim endStr).isEmpty then
    (fullMin, fullMax)
  else
    match parseNum startStr, parseNum endStr with
    | some st0, some en0 =>
      let st1 := if st0 > en0 then en0 else st0
      let en1 := if st0 > en0 then st0 else en0
      if en1 < fullMin ∨ st1 > fullMax then (fullMin, fullMax)
      else (max st1 fullMin, min en1 fullMax)
    | _, _ => (fullMin, fullMax)

/-- `DashDAQViewer._get_time_range` (lines 493-533): `none` models the
`(None, None)` early returns (no time column, or no non-missing sample). -/
def getTimeRange (df : NumDF) (startStr endStr : String) : Option (ℚ × ℚ) :=
  match timeColumn df with
  | none => none
  | some tc =>
    match foldMin (dropna (colQ df tc)), foldMax (dropna (colQ df tc)) with
    | some fullMin, some fullMax =>
      some (clampRange fullMin fullMax startStr endStr)
    | _, _ => none

/-- Row filter of `DashDAQViewer.plot_selected` (line 610): keep rows whose
time cell `t` satisfies `a ≤ t ≤ b` (a missing time cell compares false). -/
def sliceByTime (df : NumDF) (tc : String) (a b : ℚ) : NumDF :=
  ⟨df.cols,
   df.rows.filter (fun r =>
     match rowCell df.cols r tc with
     | some (some v) => decide (a ≤ v) && decide (v ≤ b)
     | _ => false)⟩

/-! ## Alignment and structural lemmas -/

/-- Every row of the frame has one cell per column. -/
def aligned (df : DF α) : Prop :=
  ∀ r ∈ df.rows, r.length = df.cols.length

lemma padRows_mem_length {n : Nat} :
    ∀ {ls rows}, padRows n ls = some rows → ∀ r ∈ rows, r.length = n := by
  intro ls
  induction ls with
  | nil =>
    intro rows h r hr
    simp only [padRows, Option.some.injEq] at h
    subst h
    simp at hr
  | cons l ls ih =>
    intro rows h r hr
    simp only [padRows] at h
    split at h
    · cases hp : padRows n ls with
      | none => rw [hp] at h; cases h
      | some rs =>
        rw [hp] at h
        cases h
        rcases List.mem_cons.1 hr with h1 | h1
        · subst h1
          have hle : (csvSplit l).length ≤ n := by assumption
          simp [List.length_append, List.length_replicate]
          omega
        · exact ih hp r h1
    · cases h

lemma modesAux_length (rows : List (List String)) :
    ∀ (j : Nat) (cs : List String), (modesAux rows j cs).length = cs.length := by
  intro j cs
  induction cs generalizing j with
  | nil => rfl
  | cons c cs ih => simp [modesAux, ih]

lemma readCSV_ok_elim {region : List String} {df : DF CellVal}
    (h : readCSV region = .ok df) :
    ∃ cols rows, rawGrid region = .ok (cols, rows) ∧
      df = ⟨cols, inferRows cols rows⟩ ∧ (∀ r ∈ rows, r.length = cols.length) := by
  unfold readCSV at h
  cases hg : rawGrid region with
  | error e => rw [hg] at h; cases h
  | ok p =>
    obtain ⟨cols, rows⟩ := p
    rw [hg] at h
    cases h
    refine ⟨cols, rows, rfl, rfl, ?_⟩
    unfold rawGrid at hg
    cases region with
    | nil => cases hg
    | cons hdr rest =>
      simp only at hg
      split at hg
      · cases hg
      · rename_i rows hp
        cases hg
        exact padRows_mem_length hp

lemma readCSV_aligned {region : List String} {df : DF CellVal}
    (h : readCSV region = .ok df) : aligned df := by
  rcases readCSV_ok_elim h with ⟨cols, rows, _, hdf, hlen⟩
  subst hdf
  intro r hr
  simp only [inferRows, List.mem_map] at hr
  rcases hr with ⟨r0, hr0, rfl⟩
  simp [List.length_zipWith, modesAux_length, hlen r0 hr0]

lemma dropRowCells_length :
    ∀ (cols : List String) (r : List α), r.length = cols.length →
      (dropRowCells cols r).length = (cols.filter (fun c => !unnamedCol c)).length := by
  intro cols
  induction cols with
  | nil => intro r h; cases r with
    | nil => rfl
    | cons x xs => cases h
  | cons c cs ih =>
    intro r h
    cases r with
    | nil => cases h
    | cons x xs =>
      simp only [List.length_cons, Nat.succ.injEq] at h
      simp only [dropRowCells, List.filter_cons]
      by_cases hc : unnamedCol c
      · simp [hc, ih xs h]
      · simp [hc, ih xs h]

lemma dropUnnamed_aligned {df : DF α} (h : aligned df) : aligned (dropUnnamed df) := by
  intro r hr
  simp only [dropUnnamed, List.mem_map] at hr ⊢
  rcases hr with ⟨r0, hr0, rfl⟩
  exact dropRowCells_length df.cols r0 (h r0 hr0)

lemma coerceDF_aligned {df : DF CellVal} (h : aligned df) : aligned (coerceDF df) := by
  intro r hr
  simp only [coerceDF, List.mem_map] at hr
  rcases hr with ⟨r0, hr0, rfl⟩
  simpa using h r0 hr0

lemma dropRow0_aligned {df : DF α} (h : aligned df) : aligned (dropRow0 df) := by
  intro r hr
  exact h r (List.mem_of_mem_tail hr)

lemma unitsRowA_elim {df1 df2 : DF CellVal} (h : unitsRowA df1 = .ok df2) :
    ∃ c, loc0 df1 "Time" = some c ∧
      df2 = (if isTxtCell c then dropRow0 df1 else df1) := by
  unfold unitsRowA at h
  cases hl : loc0 df1 "Time" with
  | none => rw [hl] at h; cases h
  | some c => rw [hl] at h; cases h; exact ⟨c, rfl, rfl⟩

lemma unitsRowA_cols {df1 df2 : DF CellVal} (h : unitsRowA df1 = .ok df2) :
    df2.cols = df1.cols := by
  rcases unitsRowA_elim h with ⟨c, _, rfl⟩
  split <;> rfl

lemma unitsRowA_aligned {df1 df2 : DF CellVal} (h : unitsRowA df1 = .ok df2)
    (ha : aligned df1) : aligned df2 := by
  rcases unitsRowA_elim h with ⟨c, _, rfl⟩
  split
  · exact dropRow0_aligned ha
  · exact ha

lemma unitsRowG_elim {df1 : DF CellVal} {df2 : DF CellVal}
    {u : List (String × String)} (h : unitsRowG df1 = .ok (df2, u)) :
    (hasCol df1.cols "Time" = false ∧ df2 = df1 ∧ u = []) ∨
    (hasCol df1.cols "Time" = true ∧ ∃ r0 rest, df1.rows = r0 :: rest ∧
      df2 = ⟨df1.cols, rest⟩ ∧
      u = df1.cols.map (fun c => (c, pyStr ((rowCell df1.cols r0 c).getD .na)))) := by
  unfold unitsRowG at h
  by_cases ht : hasCol df1.cols "Time"
  · rw [if_pos ht] at h
    cases hr : df1.rows with
    | nil => rw [hr] at h; cases h
    | cons r0 rest =>
      rw [hr] at h
      cases h
      exact Or.inr ⟨ht, r0, rest, rfl, rfl, rfl⟩
  · rw [if_neg ht] at h
    cases h
    exact Or.inl ⟨by simpa using ht, rfl, rfl⟩

lemma unitsRowG_cols {df1 df2 : DF CellVal} {u : List (String × String)}
    (h : unitsRowG df1 = .ok (df2, u)) : df2.cols = df1.cols := by
  rcases unitsRowG_elim h with ⟨_, rfl, _⟩ | ⟨_, r0, rest, _, rfl, _⟩ <;> rfl

lemma unitsRowG_aligned {df1 df2 : DF CellVal} {u : List (String × String)}
    (h : unitsRowG df1 = .ok (df2, u)) (ha : aligned df1) : aligned df2 := by
  rcases unitsRowG_elim h with ⟨_, rfl, _⟩ | ⟨_, r0, rest, hrows, rfl, _⟩
  · exact ha
  · intro r hr
    exact ha r (by rw [hrows]; exact List.mem_cons_of_mem r0 hr)

/-! ## Column lookup and update lemmas -/

lemma hasCol_iff {cols : List String} {name : String} :
    hasCol cols name = true ↔ name ∈ cols := by
  simp only [hasCol, List.any_eq_true, beq_iff_eq]
  exact ⟨fun ⟨c, hc, h⟩ => h ▸ hc, fun h => ⟨name, h, rfl⟩⟩

lemma hasCol_false_iff {cols : List String} {name : String} :
    hasCol cols name = false ↔ name ∉ cols := by
  rw [← Bool.not_eq_true, not_iff_not]
  exact hasCol_iff

lemma beq_false_of_hasCol_false {cols : List String} {name : String}
    (h : hasCol cols name = false) : ∀ c ∈ cols, (c == name) = false := by
  intro c hc
  by_contra hb
  have : (c == name) = true := by
    cases hcb : (c == name) with
    | true => rfl
    | false => exact absurd hcb hb
  exact absurd (hasCol_iff.2 ((beq_iff_eq.1 this) ▸ hc)) (by simp [h])

lemma rowCell_setRow_self :
    ∀ (cols : List String) (r : List (Option ℚ)) (name : String) (v : Option ℚ),
      hasCol cols name = true → r.length = cols.length →
      rowCell cols (setRow cols r name v) name = some v := by
  intro cols
  induction cols with
  | nil => intro r name v h _; cases h
  | cons c cs ih =>
    intro r name v h hlen
    cases r with
    | nil => cases hlen
    | cons x xs =>
      simp only [List.length_cons, Nat.succ.injEq] at hlen
      by_cases hc : (c == name) = true
      · simp [setRow, rowCell, hc]
      · have hc' : (c == name) = false := by simpa using hc
        have h' : hasCol cs name = true := by
          simpa [hasCol, hc'] using h
        simp [setRow, rowCell, hc', ih xs name v h' hlen]

lemma rowCell_setRow_ne :
    ∀ (cols : List String) (r : List (Option ℚ)) (name m : String) (v : Option ℚ),
      m ≠ name → rowCell cols (setRow cols r name v) m = rowCell cols r m := by
  intro cols
  induction cols with
  | nil => intro r name m v _; cases r <;> rfl
  | cons c cs ih =>
    intro r name m v hm
    cases r with
    | nil => rfl
    | cons x xs =>
      by_cases hcn : (c == name) = true
      · have hcm : (c == m) = false := by
          have : c = name := beq_iff_eq.1 hcn
          subst this
          simpa using fun h => hm h.symm
        simp [setRow, rowCell, hcn, hcm]
      · have hcn' : (c == name) = false := by simpa using hcn
        by_cases hcm : (c == m) = true
        · simp [setRow, rowCell, hcn', hcm]
        · have hcm' : (c == m) = false := by simpa using hcm
          simp [setRow, rowCell, hcn', hcm', ih xs name m v hm]

lemma rowCell_append_self :
    ∀ (cols : List String) (r : List (Option ℚ)) (name : String) (v : Option ℚ),
      hasCol cols name = false → r.length = cols.length →
      rowCell (cols ++ [name]) (r ++ [v]) name = some v := by
  intro cols
  induction cols with
  | nil =>
    intro r name v _ hlen
    cases r with
    | nil => simp [rowCell]
    | cons x xs => cases hlen
  | cons c cs ih =>
    intro r name v h hlen
    cases r with
    | nil => cases hlen
    | cons x xs =>
      simp only [List.length_cons, Nat.succ.injEq] at hlen
      have hc : (c == name) = false :=
        beq_false_of_hasCol_false h c (List.mem_cons_self c cs)
      have h' : hasCol cs name = false := by
        simpa [hasCol, hc] using h
      simp [rowCell, hc, ih xs name v h' hlen]

lemma rowCell_append_ne :
    ∀ (cols : List String) (r : List (Option ℚ)) (name m : String) (v : Option ℚ),
      m ≠ name → r.length = cols.length →
      rowCell (cols ++ [name]) (r ++ [v]) m = rowCell cols r m := by
  intro cols
  induction cols with
  | nil =>
    intro r name m v hm hlen
    cases r with
    | nil =>
      have : (name == m) = false := by
        simpa using fun h => hm h.symm
      simp [rowCell, this]
    | cons x xs => cases hlen
  | cons c cs ih =>
    intro r name m v hm hlen
    cases r with
    | nil => cases hlen
    | cons x xs =>
      simp only [List.length_cons, Nat.succ.injEq] at hlen
      by_cases hc : (c == m) = true
      · simp [rowCell, hc]
      · have hc' : (c == m) = false := by simpa using hc
        simp [rowCell, hc', ih xs name m v hm hlen]

/-! ## Column extraction through `setColN` and `addTimeS` -/

lemma map_zipWith_right {α β γ : Type} (f : γ → β) (g : α → β → γ) :
    ∀ (as : List α) (bs : List β), bs.length = as.length →
      (∀ a ∈ as, ∀ b, f (g a b) = b) →
      (List.zipWith g as bs).map f = bs := by
  intro as
  induction as with
  | nil => intro bs h _; cases bs with
    | nil => rfl
    | cons b bs => cases h
  | cons a as ih =>
    intro bs h hf
    cases bs with
    | nil => cases h
    | cons b bs =>
      simp only [List.length_cons, Nat.succ.injEq] at h
      simp only [List.zipWith_cons_cons, List.map_cons]
      rw [hf a (List.mem_cons_self a as) b,
        ih bs h (fun x hx => hf x (List.mem_cons_of_mem a hx))]

lemma map_zipWith_left {α β γ : Type} (f : γ → β) (g : α → β → γ) (h2 : α → β) :
    ∀ (as : List α) (bs : List β), bs.length = as.length →
      (∀ a ∈ as, ∀ b, f (g a b) = h2 a) →
      (List.zipWith g as bs).map f = as.map h2 := by
  intro as
  induction as with
  | nil => intro bs h _; cases bs with
    | nil => rfl
    | cons b bs => cases h
  | cons a as ih =>
    intro bs h hf
    cases bs with
    | nil => cases h
    | cons b bs =>
      simp only [List.length_cons, Nat.succ.injEq] at h
      simp only [List.zipWith_cons_cons, List.map_cons]
      rw [hf a (List.mem_cons_self a as) b,
        ih bs h (fun x hx => hf x (List.mem_cons_of_mem a hx))]

lemma colQ_length (df : NumDF) (name : String) :
    (colQ df name).length = df.rows.length := by
  simp [colQ]

lemma colQ_setColN_self (df : NumDF) (name : String) (vals : List (Option ℚ))
    (hal : aligned df) (hv : vals.length = df.rows.length) :
    colQ (setColN df name vals) name = vals := by
  unfold setColN
  by_cases ht : hasCol df.cols name = true
  · rw [if_pos ht]
    unfold colQ
    exact map_zipWith_right _ _ df.rows vals hv (fun r hr v => by
      rw [rowCell_setRow_self df.cols r name v ht (hal r hr)])
  · rw [if_neg (by simpa using ht)]
    have ht' : hasCol df.cols name = false := by simpa using ht
    unfold colQ
    exact map_zipWith_right _ _ df.rows vals hv (fun r hr v => by
      rw [rowCell_append_self df.cols r name v ht' (hal r hr)])

lemma colQ_setColN_ne (df : NumDF) (name m : String) (vals : List (Option ℚ))
    (hm : m ≠ name) (hal : aligned df) (hv : vals.length = df.rows.length) :
    colQ (setColN df name vals) m = colQ df m := by
  unfold setColN
  by_cases ht : hasCol df.cols name = true
  · rw [if_pos ht]
    unfold colQ
    exact map_zipWith_left _ _ _ df.rows vals hv (fun r hr v => by
      rw [rowCell_setRow_ne df.cols r name m v hm])
  · rw [if_neg (by simpa using ht)]
    unfold colQ
    exact map_zipWith_left _ _ _ df.rows vals hv (fun r hr v => by
      rw [rowCell_append_ne df.cols r name m v hm (hal r hr)])

lemma setColN_cols (df : NumDF) (name : String) (vals : List (Option ℚ)) :
    (setColN df name vals).cols =
      if hasCol df.cols name then df.cols else df.cols ++ [name] := by
  unfold setColN
  split <;> simp_all

lemma hasCol_append (cols : List String) (n m : String) :
    hasCol (cols ++ [n]) m = (hasCol cols m || (n == m)) := by
  simp [hasCol, List.any_append]

lemma deriveTimeS_length (tc : List (Option ℚ)) :
    (deriveTimeS tc).length = tc.length := by
  unfold deriveTimeS
  cases colMin tc <;> simp

lemma addTimeS_cols (df : NumDF) :
    (addTimeS df).cols = df.cols ∨ (addTimeS df).cols = df.cols ++ ["Time_s"] := by
  unfold addTimeS
  by_cases ht : hasCol df.cols "Time" = true
  · rw [if_pos ht, setColN_cols]
    by_cases hs : hasCol df.cols "Time_s" = true
    · rw [if_pos hs]; exact Or.inl rfl
    · rw [if_neg (by simpa using hs)]; exact Or.inr rfl
  · rw [if_neg (by simpa using ht)]; exact Or.inl rfl

lemma addTimeS_of_no_time (df : NumDF) (ht : hasCol df.cols "Time" = false) :
    addTimeS df = df := by
  unfold addTimeS
  rw [if_neg (by simp [ht])]

lemma addTimeS_spec (df : NumDF) (hal : aligned df)
    (ht : hasCol df.cols "Time" = true) :
    colQ (addTimeS df) "Time" = colQ df "Time" ∧
    colQ (addTimeS df) "Time_s" = deriveTimeS (colQ df "Time") ∧
    hasCol (addTimeS df).cols "Time" = true ∧
    hasCol (addTimeS df).cols "Time_s" = true := by
  have hv : (deriveTimeS (colQ df "Time")).length = df.rows.length := by
    rw [deriveTimeS_length, colQ_length]
  have hts : addTimeS df = setColN df "Time_s" (deriveTimeS (colQ df "Time")) := by
    unfold addTimeS; rw [if_pos ht]
  refine ⟨?_, ?_, ?_, ?_⟩
  · rw [hts]
    exact colQ_setColN_ne df "Time_s" "Time" _ (by decide) hal hv
  · rw [hts]
    exact colQ_setColN_self df "Time_s" _ hal hv
  · rw [hts, setColN_cols]
    split
    · exact ht
    · rw [hasCol_append, ht]; rfl
  · rw [hts, setColN_cols]
    split
    · rename_i hs
      exact hs
    · rw [hasCol_append]
      simp

/-! ## Minimum and time-derivation lemmas -/

lemma colMin_eq_none : ∀ {tc : List (Option ℚ)}, colMin tc = none →
    ∀ v : ℚ, some v ∉ tc := by
  intro tc
  induction tc with
  | nil => intro _ v h; cases h
  | cons x t ih =>
    intro h v hv
    cases x with
    | none =>
      rw [show colMin (none :: t) = colMin t from rfl] at h
      rcases List.mem_cons.1 hv with h1 | h1
      · cases h1
      · exact ih h v h1
    | some w =>
      exfalso
      simp only [colMin] at h
      cases hm : colMin t <;> rw [hm] at h <;> cases h

lemma colMin_le : ∀ {tc : List (Option ℚ)} {v m : ℚ},
    some v ∈ tc → colMin tc = some m → m ≤ v := by
  intro tc
  induction tc with
  | nil => intro v m h; cases h
  | cons x t ih =>
    intro v m hv hm
    cases x with
    | none =>
      rw [show colMin (none :: t) = colMin t from rfl] at hm
      rcases List.mem_cons.1 hv with h1 | h1
      · cases h1
      · exact ih h1 hm
    | some w =>
      simp only [colMin] at hm
      cases hm2 : colMin t with
      | none =>
        rw [hm2] at hm
        injection hm with hme
        rcases List.mem_cons.1 hv with h1 | h1
        · injection h1 with h1e
          linarith [hme, h1e]
        · exact absurd h1 (colMin_eq_none hm2 v)
      | some m0 =>
        rw [hm2] at hm
        injection hm with hme
        rcases List.mem_cons.1 hv with h1 | h1
        · injection h1 with h1e
          have h2 := min_le_left w m0
          linarith [hme, h1e]
        · have h2 := ih h1 hm2
          have h3 := min_le_right w m0
          linarith [hme]

lemma colMin_mem : ∀ {tc : List (Option ℚ)} {m : ℚ},
    colMin tc = some m → some m ∈ tc := by
  intro tc
  induction tc with
  | nil => intro m h; cases h
  | cons x t ih =>
    intro m hm
    cases x with
    | none =>
      rw [show colMin (none :: t) = colMin t from rfl] at hm
      exact List.mem_cons_of_mem _ (ih hm)
    | some w =>
      simp only [colMin] at hm
      cases hm2 : colMin t with
      | none =>
        rw [hm2] at hm
        injection hm with hm
        subst hm
        exact List.mem_cons_self _ _
      | some m0 =>
        rw [hm2] at hm
        injection hm with hm
        subst hm
        rcases le_total w m0 with h | h
        · rw [min_eq_left h]; exact List.mem_cons_self _ _
        · rw [min_eq_right h]; exact List.mem_cons_of_mem _ (ih hm2)

lemma colMin_isSome_of_mem {tc : List (Option ℚ)} {v : ℚ} (h : some v ∈ tc) :
    ∃ m, colMin tc = some m := by
  cases hm : colMin tc with
  | none => exact absurd h (colMin_eq_none hm v)
  | some m => exact ⟨m, rfl⟩

lemma deriveTimeS_get_none {tc : List (Option ℚ)} {i : Nat}
    (h : tc.get? i = some none) : (deriveTimeS tc).get? i = some none := by
  unfold deriveTimeS
  cases colMin tc with
  | none => rw [List.get?_map, h]; rfl
  | some m => rw [List.get?_map, h]; rfl

lemma deriveTimeS_get_some {tc : List (Option ℚ)} {i : Nat} {v m : ℚ}
    (h : tc.get? i = some (some v)) (hm : colMin tc = some m) :
    (deriveTimeS tc).get? i = some (some ((v - m) / 1000)) := by
  unfold deriveTimeS
  rw [hm, List.get?_map, h]
  rfl

lemma deriveTimeS_nonneg {tc : List (Option ℚ)} {x : ℚ}
    (h : some x ∈ deriveTimeS tc) : 0 ≤ x := by
  unfold deriveTimeS at h
  cases hm : colMin tc with
  | none =>
    rw [hm] at h
    rcases List.mem_map.1 h with ⟨y, _, hy⟩
    cases hy
  | some m =>
    rw [hm] at h
    rcases List.mem_map.1 h with ⟨y, hy, hxy⟩
    cases y with
    | none => cases hxy
    | some w =>
      have hx : (w - m) / 1000 = x := by
        simpa using hxy
      subst hx
      have hle : m ≤ w := colMin_le hy hm
      have h1000 : (0 : ℚ) ≤ 1000 := by norm_num
      exact div_nonneg (by linarith) h1000

lemma deriveTimeS_attains_zero {tc : List (Option ℚ)} {v : ℚ}
    (h : some v ∈ tc) : some 0 ∈ deriveTimeS tc := by
  rcases colMin_isSome_of_mem h with ⟨m, hm⟩
  unfold deriveTimeS
  rw [hm]
  refine List.mem_map.2 ⟨some m, colMin_mem hm, ?_⟩
  simp

lemma deriveTimeS_all_none {tc : List (Option ℚ)} (h : colMin tc = none) :
    ∀ x ∈ deriveTimeS tc, x = none := by
  intro x hx
  unfold deriveTimeS at hx
  rw [h] at hx
  rcases List.mem_map.1 hx with ⟨y, _, hy⟩
  exact hy.symm

/-! ## Header location lemmas -/

lemma findHeader_eq_none {doc : List String}
    (h : ∀ l ∈ doc, isHeaderLine l = false) : findHeader doc = none := by
  induction doc with
  | nil => rfl
  | cons l ls ih =>
    unfold findHeader
    rw [h l (List.mem_cons_self l ls)]
    simp only [Bool.false_eq_true, if_false]
    rw [ih (fun x hx => h x (List.mem_cons_of_mem l hx))]
    rfl

lemma findHeader_append {p rest : List String}
    (hp : ∀ l ∈ p, isHeaderLine l = false) :
    findHeader (p ++ rest) = (findHeader rest).map (· + p.length) := by
  induction p with
  | nil =>
    cases h : findHeader rest <;> simp [h]
  | cons l ls ih =>
    have hl := hp l (List.mem_cons_self l ls)
    have ih2 := ih (fun x hx => hp x (List.mem_cons_of_mem l hx))
    simp only [List.cons_append]
    rw [show findHeader (l :: (ls ++ rest)) =
        (if isHeaderLine l = true then some 0
         else (findHeader (ls ++ rest)).map (· + 1)) from rfl]
    rw [hl]
    simp only [Bool.false_eq_true, if_false]
    rw [ih2]
    cases h : findHeader rest with
    | none => simp
    | some k =>
      simp only [Option.map_some', List.length_cons, Option.some.injEq]
      omega

/-! ## Entry-point decomposition lemmas -/

lemma loadAnalyze_decompose {doc : List String} {df : NumDF}
    (h : loadAnalyze doc = .ok df) :
    ∃ k df0 df2, findHeader doc = some k ∧ readCSV (doc.drop k) = .ok df0 ∧
      unitsRowA (dropUnnamed df0) = .ok df2 ∧
      df2.cols = (dropUnnamed df0).cols ∧ aligned (coerceDF df2) ∧
      df = addTimeS (coerceDF df2) := by
  unfold loadAnalyze at h
  cases hf : findHeader doc with
  | none => rw [hf] at h; cases h
  | some k =>
    rw [hf] at h
    have h1 : loadRegionA (doc.drop k) = .ok df := h
    unfold loadRegionA at h1
    cases hr : readCSV (doc.drop k) with
    | error e => rw [hr] at h1; cases h1
    | ok df0 =>
      rw [hr] at h1
      have h2 : (match unitsRowA (dropUnnamed df0) with
        | .error e => (.error e : Except LoadErr NumDF)
        | .ok df2 => .ok (addTimeS (coerceDF df2))) = .ok df := h1
      cases hu : unitsRowA (dropUnnamed df0) with
      | error e => rw [hu] at h2; cases h2
      | ok df2 =>
        rw [hu] at h2
        have h3 : addTimeS (coerceDF df2) = df := by
          injection h2
        refine ⟨k, df0, df2, rfl, hr, hu, unitsRowA_cols hu, ?_, h3.symm⟩
        exact coerceDF_aligned
          (unitsRowA_aligned hu (dropUnnamed_aligned (readCSV_aligned hr)))

lemma loadGUI_decompose {doc : List String} {df : NumDF}
    {units : List (String × String)} (h : loadGUI doc = .ok (df, units)) :
    ∃ k df0 df2 units0, findHeader doc = some k ∧
      readCSV (doc.drop k) = .ok df0 ∧
      unitsRowG (dropUnnamed df0) = .ok (df2, units0) ∧
      df2.cols = (dropUnnamed df0).cols ∧ aligned (coerceDF df2) ∧
      df = addTimeS (coerceDF df2) ∧
      units = (if hasCol df2.cols "Time" then dictSet units0 "Time_s" "s"
               else units0) := by
  unfold loadGUI at h
  cases hf : findHeader doc with
  | none => rw [hf] at h; cases h
  | some k =>
    rw [hf] at h
    have h1 : loadRegionG (doc.drop k) = .ok (df, units) := h
    unfold loadRegionG at h1
    cases hr : readCSV (doc.drop k) with
    | error e => rw [hr] at h1; cases h1
    | ok df0 =>
      rw [hr] at h1
      have h2 : (match unitsRowG (dropUnnamed df0) with
        | .error e =>
            (.error e : Except LoadErr (NumDF × List (String × String)))
        | .ok (df2, units0) =>
            if hasCol (coerceDF df2).cols "Time" = true then
              .ok (addTimeS (coerceDF df2), dictSet units0 "Time_s" "s")
            else .ok (coerceDF df2, units0)) = .ok (df, units) := h1
      cases hu : unitsRowG (dropUnnamed df0) with
      | error e => rw [hu] at h2; cases h2
      | ok p =>
        obtain ⟨df2, units0⟩ := p
        rw [hu] at h2
        have h3 : (if hasCol (coerceDF df2).cols "Time" = true then
            (Except.ok (addTimeS (coerceDF df2), dictSet units0 "Time_s" "s") :
              Except LoadErr (NumDF × List (String × String)))
          else .ok (coerceDF df2, units0)) = .ok (df, units) := h2
        have hcc : (coerceDF df2).cols = df2.cols := rfl
        by_cases ht : hasCol (coerceDF df2).cols "Time" = true
        · rw [if_pos ht] at h3
          injection h3 with h4
          injection h4 with hdf hunits
          refine ⟨k, df0, df2, units0, rfl, hr, hu, unitsRowG_cols hu, ?_,
            hdf.symm, ?_⟩
          · exact coerceDF_aligned
              (unitsRowG_aligned hu (dropUnnamed_aligned (readCSV_aligned hr)))
          · rw [hcc] at ht
            rw [if_pos ht]
            exact hunits.symm
        · rw [if_neg ht] at h3
          injection h3 with h4
          injection h4 with hdf hunits
          have ht' : hasCol df2.cols "Time" = false := by
            rw [hcc] at ht
            simpa using ht
          refine ⟨k, df0, df2, units0, rfl, hr, hu, unitsRowG_cols hu, ?_, ?_, ?_⟩
          · exact coerceDF_aligned
              (unitsRowG_aligned hu (dropUnnamed_aligned (readCSV_aligned hr)))
          · rw [← hdf, addTimeS_of_no_time _ ht']
          · rw [if_neg (by simp [ht'])]
            exact hunits.symm

/-! ## Failure characterisation lemmas -/

lemma rawGrid_error {region : List String} {e : LoadErr}
    (h : rawGrid region = .error e) : e = .emptyRegion ∨ e = .tooManyFields := by
  unfold rawGrid at h
  cases region with
  | nil =>
    injection h with h
    exact Or.inl h.symm
  | cons hdr rest =>
    simp only at h
    split at h
    · injection h with h
      exact Or.inr h.symm
    · cases h

lemma readCSV_error {region : List String} {e : LoadErr}
    (h : readCSV region = .error e) : e = .emptyRegion ∨ e = .tooManyFields := by
  unfold readCSV at h
  cases hg : rawGrid region with
  | error e2 =>
    rw [hg] at h
    injection h with h
    exact h ▸ rawGrid_error hg
  | ok p =>
    obtain ⟨cols, rows⟩ := p
    rw [hg] at h
    cases h

lemma unitsRowA_error {df1 : DF CellVal} {e : LoadErr}
    (h : unitsRowA df1 = .error e) : e = .keyError := by
  unfold unitsRowA at h
  cases hl : loc0 df1 "Time" with
  | none => rw [hl] at h; injection h with h; exact h.symm
  | some c => rw [hl] at h; cases h

lemma unitsRowG_error {df1 : DF CellVal} {e : LoadErr}
    (h : unitsRowG df1 = .error e) : e = .keyError := by
  unfold unitsRowG at h
  by_cases ht : hasCol df1.cols "Time" = true
  · rw [if_pos ht] at h
    cases hr : df1.rows with
    | nil => rw [hr] at h; injection h with h; exact h.symm
    | cons r0 rest => rw [hr] at h; cases h
  · rw [if_neg ht] at h
    cases h

lemma loadRegionA_ne_hnf (region : List String) :
    loadRegionA region ≠ .error .headerNotFound := by
  intro h
  unfold loadRegionA at h
  cases hr : readCSV region with
  | error e =>
    rw [hr] at h
    injection h with he
    subst he
    rcases readCSV_error hr with h2 | h2 <;> cases h2
  | ok df0 =>
    rw [hr] at h
    have h2 : (match unitsRowA (dropUnnamed df0) with
      | .error e => (.error e : Except LoadErr NumDF)
      | .ok df2 => .ok (addTimeS (coerceDF df2))) = .error .headerNotFound := h
    cases hu : unitsRowA (dropUnnamed df0) with
    | error e =>
      rw [hu] at h2
      injection h2 with he
      subst he
      cases unitsRowA_error hu
    | ok df2 =>
      rw [hu] at h2
      cases h2

lemma loadRegionG_ne_hnf (region : List String) :
    loadRegionG region ≠ .error .headerNotFound := by
  intro h
  unfold loadRegionG at h
  cases hr : readCSV region with
  | error e =>
    rw [hr] at h
    injection h with he
    subst he
    rcases readCSV_error hr with h2 | h2 <;> cases h2
  | ok df0 =>
    rw [hr] at h
    have h2 : (match unitsRowG (dropUnnamed df0) with
      | .error e =>
          (.error e : Except LoadErr (NumDF × List (String × String)))
      | .ok (df2, units0) =>
          if hasCol (coerceDF df2).cols "Time" = true then
            .ok (addTimeS (coerceDF df2), dictSet units0 "Time_s" "s")
          else .ok (coerceDF df2, units0)) = .error .headerNotFound := h
    cases hu : unitsRowG (dropUnnamed df0) with
    | error e =>
      rw [hu] at h2
      injection h2 with he
      subst he
      cases unitsRowG_error hu
    | ok p =>
      obtain ⟨df2, units0⟩ := p
      rw [hu] at h2
      have h3 : (if hasCol (coerceDF df2).cols "Time" = true then
          (Except.ok (addTimeS (coerceDF df2), dictSet units0 "Time_s" "s") :
            Except LoadErr (NumDF × List (String × String)))
        else .ok (coerceDF df2, units0)) = .error .headerNotFound := h2
      split at h3 <;> cases h3

lemma loadAnalyze_of_header {doc : List String} {k : Nat}
    (hf : findHeader doc = some k) :
    loadAnalyze doc = loadRegionA (doc.drop k) := by
  unfold loadAnalyze
  rw [hf]

lemma loadGUI_of_header {doc : List String} {k : Nat}
    (hf : findHeader doc = some k) :
    loadGUI doc = loadRegionG (doc.drop k) := by
  unfold loadGUI
  rw [hf]

/-! ## Prefix-independence lemmas -/

lemma loadAnalyze_skip_meta {p rest : List String}
    (hp : ∀ l ∈ p, isHeaderLine l = false) :
    loadAnalyze (p ++ rest) = loadAnalyze rest := by
  unfold loadAnalyze
  rw [findHeader_append hp]
  cases h : findHeader rest with
  | none => rfl
  | some k =>
    show loadRegionA ((p ++ rest).drop (k + p.length)) = loadRegionA (rest.drop k)
    rw [show k + p.length = p.length + k from Nat.add_comm k p.length,
      List.drop_append]

lemma loadGUI_skip_meta {p rest : List String}
    (hp : ∀ l ∈ p, isHeaderLine l = false) :
    loadGUI (p ++ rest) = loadGUI rest := by
  unfold loadGUI
  rw [findHeader_append hp]
  cases h : findHeader rest with
  | none => rfl
  | some k =>
    show loadRegionG ((p ++ rest).drop (k + p.length)) = loadRegionG (rest.drop k)
    rw [show k + p.length = p.length + k from Nat.add_comm k p.length,
      List.drop_append]

/-! ## Placeholder-column lemmas -/

lemma mem_dropUnnamed_cols {df0 : DF CellVal} {c : String}
    (hc : c ∈ (dropUnnamed df0).cols) : unnamedCol c = false := by
  simp only [dropUnnamed, List.mem_filter] at hc
  simpa using hc.2

lemma coerceDF_cols (df : DF CellVal) : (coerceDF df).cols = df.cols := rfl

lemma loadAnalyze_cols_clean {doc : List String} {df : NumDF}
    (h : loadAnalyze doc = .ok df) : ∀ c ∈ df.cols, unnamedCol c = false := by
  rcases loadAnalyze_decompose h with ⟨k, df0, df2, _, _, _, hcols, _, rfl⟩
  intro c hc
  rcases addTimeS_cols (coerceDF df2) with he | he
  · rw [he, coerceDF_cols, hcols] at hc
    exact mem_dropUnnamed_cols hc
  · rw [he, coerceDF_cols, hcols] at hc
    rcases List.mem_append.1 hc with h1 | h1
    · exact mem_dropUnnamed_cols h1
    · have hc2 : c = "Time_s" := by simpa using h1
      subst hc2
      decide

lemma loadGUI_cols_clean {doc : List String} {df : NumDF}
    {units : List (String × String)} (h : loadGUI doc = .ok (df, units)) :
    ∀ c ∈ df.cols, unnamedCol c = false := by
  rcases loadGUI_decompose h with ⟨k, df0, df2, units0, _, _, _, hcols, _, rfl, _⟩
  intro c hc
  rcases addTimeS_cols (coerceDF df2) with he | he
  · rw [he, coerceDF_cols, hcols] at hc
    exact mem_dropUnnamed_cols hc
  · rw [he, coerceDF_cols, hcols] at hc
    rcases List.mem_append.1 hc with h1 | h1
    · exact mem_dropUnnamed_cols h1
    · have hc2 : c = "Time_s" := by simpa using h1
      subst hc2
      decide

lemma zip_dropRowCells {α : Type} :
    ∀ (cols : List String) (r : List α), r.length = cols.length →
      List.zip (cols.filter (fun c => !unnamedCol c)) (dropRowCells cols r)
        = (List.zip cols r).filter (fun p => !unnamedCol p.1) := by
  intro cols
  induction cols with
  | nil =>
    intro r h
    cases r with
    | nil => rfl
    | cons x xs => cases h
  | cons c cs ih =>
    intro r h
    cases r with
    | nil => cases h
    | cons x xs =>
      simp only [List.length_cons, Nat.succ.injEq] at h
      by_cases hc : unnamedCol c = true
      · simp [dropRowCells, List.filter_cons, List.zip_cons_cons, hc, ih xs h]
      · have hc2 : unnamedCol c = false := by simpa using hc
        simp [dropRowCells, List.filter_cons, List.zip_cons_cons, hc2, ih xs h]

/-! ## Dtype-inference characterisation -/

lemma parseNum_of_parseIntStr {s : String} {n : ℤ}
    (h : parseIntStr s = some n) : parseNum s = some ((n : ℚ)) := by
  unfold parseNum
  rw [h]

lemma inferCell_txt_iff (col : List String) (s : String) (hs : s ∈ col) :
    isTxtCell (inferCell (colMode col) s) = true ↔
      (isNA s = false ∧ ∃ c ∈ col, isNA c = false ∧ parseNum c = none) := by
  unfold colMode
  by_cases hint : col.all (fun x => (parseIntStr x).isSome) = true
  · rw [if_pos hint]
    have hsome : (parseIntStr s).isSome = true := List.all_eq_true.1 hint s hs
    constructor
    · intro h
      exfalso
      cases hp : parseIntStr s with
      | none => rw [hp] at hsome; cases hsome
      | some n =>
        have h2 : isTxtCell (match parseIntStr s with
          | some m => CellVal.intv m
          | none => CellVal.txt s) = true := h
        rw [hp] at h2
        cases h2
    · rintro ⟨hna, c, hc, hcna, hcp⟩
      exfalso
      have h2 : (parseIntStr c).isSome = true := List.all_eq_true.1 hint c hc
      cases hp : parseIntStr c with
      | none => rw [hp] at h2; cases h2
      | some n => rw [parseNum_of_parseIntStr hp] at hcp; cases hcp
  · rw [if_neg hint]
    by_cases hflt : col.all (fun x => isNA x || (parseNum x).isSome) = true
    · rw [if_pos hflt]
      have hsp := List.all_eq_true.1 hflt s hs
      constructor
      · intro h
        exfalso
        have h2 : isTxtCell (if isNA s = true then CellVal.na
          else match parseNum s with
            | some q => CellVal.fl q
            | none => CellVal.txt s) = true := h
        by_cases hna : isNA s = true
        · rw [if_pos hna] at h2
          cases h2
        · have hna2 : isNA s = false := by simpa using hna
          rw [hna2] at hsp
          simp only [Bool.false_or] at hsp
          rw [if_neg (by simp [hna2])] at h2
          cases hp : parseNum s with
          | none => rw [hp] at hsp; cases hsp
          | some q =>
            rw [hp] at h2
            cases h2
      · rintro ⟨hna, c, hc, hcna, hcp⟩
        exfalso
        have h2 := List.all_eq_true.1 hflt c hc
        rw [hcna, hcp] at h2
        cases h2
    · rw [if_neg hflt]
      have hobj : ∃ c ∈ col, (isNA c || (parseNum c).isSome) = false := by
        by_contra hcon
        push_neg at hcon
        apply hflt
        apply List.all_eq_true.2
        intro x hx
        cases hb : (isNA x || (parseNum x).isSome) with
        | true => rfl
        | false => exact absurd hb (hcon x hx)
      rcases hobj with ⟨c, hc, hcb⟩
      have hcb2 : isNA c = false ∧ (parseNum c).isSome = false := by
        constructor
        · cases h1 : isNA c with
          | false => rfl
          | true => rw [h1] at hcb; cases hcb
        · cases h1 : (parseNum c).isSome with
          | false => rfl
          | true => rw [h1, Bool.or_true] at hcb; cases hcb
      have hcpn : parseNum c = none := by
        cases hp : parseNum c with
        | none => rfl
        | some q => rw [hp] at hcb2; cases hcb2.2
      constructor
      · intro h
        have h2 : isTxtCell (if isNA s = true then CellVal.na
          else CellVal.txt s) = true := h
        by_cases hna : isNA s = true
        · rw [if_pos hna] at h2
          cases h2
        · exact ⟨by simpa using hna, c, hc, hcb2.1, hcpn⟩
      · rintro ⟨hna, _⟩
        show isTxtCell (if isNA s = true then CellVal.na else CellVal.txt s) = true
        rw [if_neg (by simp [hna])]
        rfl

lemma unitsRowA_eq_of_loc0 {df1 : DF CellVal} {c : CellVal}
    (hc : loc0 df1 "Time" = some c) :
    unitsRowA df1 = .ok (if isTxtCell c then dropRow0 df1 else df1) := by
  unfold unitsRowA
  rw [hc]

/-! ## Viewer-helper lemmas -/

lemma getTimeRange_eq {df : NumDF} {tc : String} (htc : timeColumn df = some tc)
    {fullMin fullMax : ℚ}
    (hmin : foldMin (dropna (colQ df tc)) = some fullMin)
    (hmax : foldMax (dropna (colQ df tc)) = some fullMax)
    (startStr endStr : String) :
    getTimeRange df startStr endStr =
      some (clampRange fullMin fullMax startStr endStr) := by
  unfold getTimeRange
  rw [htc]
  show (match foldMin (dropna (colQ df tc)), foldMax (dropna (colQ df tc)) with
    | some a, some b => some (clampRange a b startStr endStr)
    | _, _ => none) = _
  rw [hmin, hmax]

lemma clampRange_eq {startStr endStr : String} {st0 en0 : ℚ}
    (hs : (pyTrim startStr).isEmpty = false)
    (he : (pyTrim endStr).isEmpty = false)
    (hps : parseNum startStr = some st0) (hpe : parseNum endStr = some en0)
    (fullMin fullMax : ℚ) :
    clampRange fullMin fullMax startStr endStr =
      (if max st0 en0 < fullMin ∨ min st0 en0 > fullMax then (fullMin, fullMax)
       else (max (min st0 en0) fullMin, min (max st0 en0) fullMax)) := by
  unfold clampRange
  rw [hs, he]
  simp only [Bool.or_self, Bool.false_eq_true, if_false]
  rw [hps, hpe]
  show (if (if st0 > en0 then st0 else en0) < fullMin ∨
        (if st0 > en0 then en0 else st0) > fullMax then (fullMin, fullMax)
      else (max (if st0 > en0 then en0 else st0) fullMin,
            min (if st0 > en0 then st0 else en0) fullMax)) = _
  by_cases hgt : st0 > en0
  · have hmin2 : min st0 en0 = en0 := min_eq_right (le_of_lt hgt)
    have hmax2 : max st0 en0 = st0 := max_eq_left (le_of_lt hgt)
    simp only [if_pos hgt]
    rw [hmin2, hmax2]
  · have hle : st0 ≤ en0 := le_of_not_lt hgt
    have hmin2 : min st0 en0 = st0 := min_eq_left hle
    have hmax2 : max st0 en0 = en0 := max_eq_right hle
    simp only [if_neg hgt]
    rw [hmin2, hmax2]

lemma mem_sliceByTime {df : NumDF} {tc : String} {a b : ℚ}
    {r : List (Option ℚ)} :
    r ∈ (sliceByTime df tc a b).rows ↔
      r ∈ df.rows ∧ ∃ v, rowCell df.cols r tc = some (some v) ∧ a ≤ v ∧ v ≤ b := by
  simp only [sliceByTime, List.mem_filter]
  constructor
  · rintro ⟨h1, h2⟩
    refine ⟨h1, ?_⟩
    cases hrc : rowCell df.cols r tc with
    | none => rw [hrc] at h2; cases h2
    | some v0 =>
      cases v0 with
      | none => rw [hrc] at h2; cases h2
      | some v =>
        rw [hrc] at h2
        simp only [Bool.and_eq_true, decide_eq_true_eq] at h2
        exact ⟨v, rfl, h2.1, h2.2⟩
  · rintro ⟨h1, v, hv, ha, hb⟩
    refine ⟨h1, ?_⟩
    rw [hv]
    simp [ha, hb]

/-! ## Claim theorems -/

/-- C3 (amended): ingestion fails with the header-not-found `ValueError`
for every document — including the zero-line document — in which no line's
stripped content begins with the quoted token `"Time"`, in both entry
points, and no table or units map is produced; conversely, once such a
header line exists the load may still fail structurally (no row after the
header, a missing `Time` column at the units-row step, or a row with more
fields than the header), but such failures are never reported as
header-not-found. -/
theorem c3_header_failure_amended :
    (∀ doc : List String, (∀ l ∈ doc, isHeaderLine l = false) →
        loadAnalyze doc = .error .headerNotFound ∧
        loadGUI doc = .error .headerNotFound) ∧
    (∀ (doc : List String) (k : Nat), findHeader doc = some k →
        loadAnalyze doc ≠ .error .headerNotFound ∧
        loadGUI doc ≠ .error .headerNotFound) := by
  constructor
  · intro doc h
    have hf : findHeader doc = none := findHeader_eq_none h
    constructor
    · unfold loadAnalyze
      rw [hf]
    · unfold loadGUI
      rw [hf]
  · intro doc k hf
    constructor
    · rw [loadAnalyze_of_header hf]
      exact loadRegionA_ne_hnf _
    · rw [loadGUI_of_header hf]
      exact loadRegionG_ne_hnf _

/-- Witness for C3: a document with no `"Time"`-prefixed line fails with
header-not-found in both entry points. -/
theorem c3_header_failure_amended_witness :
    loadAnalyze ["DashDAQ Log File", "Format,3"] = .error .headerNotFound ∧
    loadGUI ["DashDAQ Log File", "Format,3"] = .error .headerNotFound :=
  c3_header_failure_amended.1 ["DashDAQ Log File", "Format,3"] (by decide)

/-- Counterexample for C3: the document consisting of the header line
alone does contain a `"Time"`-prefixed line, yet ingestion still fails —
with the key-error of the units-row inspection, not header-not-found — so
"ingestion never fails for any other structural reason once such a header
line exists" is false. -/
theorem c3_counterexample :
    isHeaderLine "\"Time\"" = true ∧
    loadAnalyze ["\"Time\""] = .error .keyError ∧
    loadGUI ["\"Time\""] = .error .keyError := by
  refine ⟨by decide, by decide, by decide⟩

/-- C6 (confirmed): numeric coercion is total — a text cell that fails the
numeric parse becomes a missing value, numeric cells pass through, NaN
stays missing; the coercion of a cell never touches any other cell of the
same row or column (rows and columns coerce pointwise); and once the
units-row step has succeeded the load returns a result, so coercion never
aborts a load whose header was located. -/
theorem c6_coercion_soft_degrade :
    (∀ s, parseNum s = none → coerceCell (.txt s) = none) ∧
    (∀ s q, parseNum s = some q → coerceCell (.txt s) = some q) ∧
    (coerceCell .na = none) ∧
    (∀ (r r2 : List CellVal) (j : Nat),
        (∀ j2, j2 ≠ j → r.get? j2 = r2.get? j2) →
        ∀ j2, j2 ≠ j → (r.map coerceCell).get? j2 = (r2.map coerceCell).get? j2) ∧
    (∀ (cols : List String) (rows rows2 : List (List CellVal)) (i : Nat),
        (∀ i2, i2 ≠ i → rows.get? i2 = rows2.get? i2) →
        ∀ i2, i2 ≠ i →
          (coerceDF ⟨cols, rows⟩).rows.get? i2 =
          (coerceDF ⟨cols, rows2⟩).rows.get? i2) ∧
    (∀ (doc : List String) (k : Nat) (df0 df2 : DF CellVal),
        findHeader doc = some k → readCSV (doc.drop k) = .ok df0 →
        unitsRowA (dropUnnamed df0) = .ok df2 →
        loadAnalyze doc = .ok (addTimeS (coerceDF df2))) ∧
    (∀ (doc : List String) (k : Nat) (df0 df2 : DF CellVal)
        (units0 : List (String × String)),
        findHeader doc = some k → readCSV (doc.drop k) = .ok df0 →
        unitsRowG (dropUnnamed df0) = .ok (df2, units0) →
        ∃ out, loadGUI doc = .ok out) := by
  refine ⟨?_, ?_, rfl, ?_, ?_, ?_, ?_⟩
  · intro s h
    show parseNum s = none
    exact h
  · intro s q h
    show parseNum s = some q
    exact h
  · intro r r2 j hoff j2 hj2
    rw [List.get?_map, List.get?_map, hoff j2 hj2]
  · intro cols rows rows2 i hoff i2 hi2
    show (rows.map (fun r => r.map coerceCell)).get? i2 =
      (rows2.map (fun r => r.map coerceCell)).get? i2
    rw [List.get?_map, List.get?_map, hoff i2 hi2]
  · intro doc k df0 df2 hf hr hu
    rw [loadAnalyze_of_header hf]
    unfold loadRegionA
    rw [hr]
    show (match unitsRowA (dropUnnamed df0) with
      | .error e => (.error e : Except LoadErr NumDF)
      | .ok d => .ok (addTimeS (coerceDF d))) = _
    rw [hu]
  · intro doc k df0 df2 units0 hf hr hu
    rw [loadGUI_of_header hf]
    unfold loadRegionG
    rw [hr]
    show (∃ out, (match unitsRowG (dropUnnamed df0) with
      | .error e =>
          (.error e : Except LoadErr (NumDF × List (String × String)))
      | .ok (d2, u0) =>
          if hasCol (coerceDF d2).cols "Time" = true then
            .ok (addTimeS (coerceDF d2), dictSet u0 "Time_s" "s")
          else .ok (coerceDF d2, u0)) = .ok out)
    rw [hu]
    by_cases ht : hasCol (coerceDF df2).cols "Time" = true
    · refine ⟨(addTimeS (coerceDF df2), dictSet units0 "Time_s" "s"), ?_⟩
      show (if hasCol (coerceDF df2).cols "Time" = true then
          (Except.ok (addTimeS (coerceDF df2), dictSet units0 "Time_s" "s") :
            Except LoadErr (NumDF × List (String × String)))
        else .ok (coerceDF df2, units0)) = _
      rw [if_pos ht]
    · refine ⟨(coerceDF df2, units0), ?_⟩
      show (if hasCol (coerceDF df2).cols "Time" = true then
          (Except.ok (addTimeS (coerceDF df2), dictSet units0 "Time_s" "s") :
            Except LoadErr (NumDF × List (String × String)))
        else .ok (coerceDF df2, units0)) = _
      rw [if_neg ht]

unseal Rat.add Rat.sub Rat.mul Rat.inv in
/-- Witness for C6: the non-numeric cell text `N/A` coerces to a missing
value, a numeric text cell keeps its value, and a concrete load whose
units-row step succeeded returns a table. -/
theorem c6_coercion_soft_degrade_witness :
    coerceCell (.txt "N/A") = none ∧ coerceCell (.txt "45.2") = some (226 / 5) ∧
    loadAnalyze ["\"Time\"", "ms", "5"] =
      .ok (addTimeS (coerceDF (dropRow0 (dropUnnamed
        ⟨["Time"], [[.txt "ms"], [.txt "5"]]⟩)))) := by
  refine ⟨c6_coercion_soft_degrade.1 "N/A" (by decide),
    c6_coercion_soft_degrade.2.1 "45.2" (226 / 5) (by decide), ?_⟩
  exact c6_coercion_soft_degrade.2.2.2.2.2.1 ["\"Time\"", "ms", "5"] 0
    ⟨["Time"], [[.txt "ms"], [.txt "5"]]⟩
    (dropRow0 (dropUnnamed ⟨["Time"], [[.txt "ms"], [.txt "5"]]⟩))
    (by decide) (by decide) (by decide)

/-- C7 (confirmed): once the first `"Time"`-prefixed line is fixed, the
whole ingestion result of either entry point is a function of the lines
from that header on — replacing the lines before it by any other lines,
none of which is `"Time"`-prefixed, yields the identical result (equal to
ingesting the suffix alone). -/
theorem c7_prefix_independence (p q rest : List String)
    (hp : ∀ l ∈ p, isHeaderLine l = false)
    (hq : ∀ l ∈ q, isHeaderLine l = false) :
    loadAnalyze (p ++ rest) = loadAnalyze rest ∧
    loadGUI (p ++ rest) = loadGUI rest ∧
    loadAnalyze (p ++ rest) = loadAnalyze (q ++ rest) ∧
    loadGUI (p ++ rest) = loadGUI (q ++ rest) := by
  refine ⟨loadAnalyze_skip_meta hp, loadGUI_skip_meta hp, ?_, ?_⟩
  · rw [loadAnalyze_skip_meta hp, loadAnalyze_skip_meta hq]
  · rw [loadGUI_skip_meta hp, loadGUI_skip_meta hq]

/-- Witness for C7: metadata lines containing commas and even the unquoted
word `Time` do not change the ingestion result. -/
theorem c7_prefix_independence_witness :
    loadAnalyze (["DashDAQ Log File", "Time,unquoted,Signal"] ++
        ["\"Time\"", "ms", "5"]) =
      loadAnalyze ["\"Time\"", "ms", "5"] ∧
    loadGUI (["DashDAQ Log File", "Time,unquoted,Signal"] ++
        ["\"Time\"", "ms", "5"]) =
      loadGUI ["\"Time\"", "ms", "5"] :=
  ⟨(c7_prefix_independence ["DashDAQ Log File", "Time,unquoted,Signal"] []
      ["\"Time\"", "ms", "5"] (by decide) (by decide)).1,
   (c7_prefix_independence ["DashDAQ Log File", "Time,unquoted,Signal"] []
      ["\"Time\"", "ms", "5"] (by decide) (by decide)).2.1⟩

/-- C8 (confirmed): a column whose name matches the placeholder pattern
(`Unnamed` prefix) never appears after the placeholder filter; the
surviving column names are exactly the header names, in header order, with
the placeholder names removed; a row's surviving cells stay paired with
the surviving column names exactly as in the original header pairing (so a
dropped column contributes no cell); and in both entry points the final
table has no placeholder-named column. -/
theorem c8_placeholder_filter :
    (∀ (df : DF CellVal) (c : String), c ∈ (dropUnnamed df).cols →
        unnamedCol c = false) ∧
    (∀ df : DF CellVal,
        (dropUnnamed df).cols = df.cols.filter (fun c => !unnamedCol c)) ∧
    (∀ (cols : List String) (r : List CellVal), r.length = cols.length →
        List.zip (cols.filter (fun c => !unnamedCol c)) (dropRowCells cols r)
          = (List.zip cols r).filter (fun p => !unnamedCol p.1)) ∧
    (∀ (doc : List String) (df : NumDF), loadAnalyze doc = .ok df →
        ∀ c ∈ df.cols, unnamedCol c = false) ∧
    (∀ (doc : List String) (df : NumDF) (units : List (String × String)),
        loadGUI doc = .ok (df, units) → ∀ c ∈ df.cols, unnamedCol c = false) := by
  refine ⟨?_, ?_, ?_, ?_, ?_⟩
  · intro df c hc
    exact mem_dropUnnamed_cols hc
  · intro df
    rfl
  · intro cols r h
    exact zip_dropRowCells cols r h
  · intro doc df h
    exact loadAnalyze_cols_clean h
  · intro doc df units h
    exact loadGUI_cols_clean h

/-- Witness for C8: a trailing-comma header produces a placeholder column
whose cells are dropped in lock-step with the name. -/
theorem c8_placeholder_filter_witness :
    List.zip (["Time", "Unnamed: 1"].filter (fun c => !unnamedCol c))
        (dropRowCells ["Time", "Unnamed: 1"] [CellVal.intv 5, CellVal.na])
      = (List.zip ["Time", "Unnamed: 1"] [CellVal.intv 5, CellVal.na]).filter
          (fun p => !unnamedCol p.1) :=
  c8_placeholder_filter.2.2.1 ["Time", "Unnamed: 1"]
    [CellVal.intv 5, CellVal.na] (by decide)

/-- C10 (confirmed): the placeholder filter keys on the column name alone —
any column whose declared header name begins with `Unnamed` is dropped
from the column set (and hence from the table) of both entry points, even
when it is a genuine data column rather than a trailing-comma artifact. -/
theorem c10_unnamed_named_column_dropped :
    (∀ (df : DF CellVal) (c : String), unnamedCol c = true →
        c ∉ (dropUnnamed df).cols) ∧
    (∀ (doc : List String) (df : NumDF), loadAnalyze doc = .ok df →
        ∀ c, unnamedCol c = true → c ∉ df.cols) ∧
    (∀ (doc : List String) (df : NumDF) (units : List (String × String)),
        loadGUI doc = .ok (df, units) → ∀ c, unnamedCol c = true →
        c ∉ df.cols) := by
  refine ⟨?_, ?_, ?_⟩
  · intro df c hc hmem
    rw [mem_dropUnnamed_cols hmem] at hc
    cases hc
  · intro doc df h c hc hmem
    rw [loadAnalyze_cols_clean h c hmem] at hc
    cases hc
  · intro doc df units h c hc hmem
    rw [loadGUI_cols_clean h c hmem] at hc
    cases hc

unseal Rat.add Rat.sub Rat.mul Rat.inv in
/-- Witness for C10: a declared data column named `UnnamedSensor`, with
real values, is silently dropped by the analysis entry point. -/
theorem c10_unnamed_named_column_dropped_witness :
    "UnnamedSensor" ∉
      (⟨["Time", "Time_s"], [[some 1, some 0]]⟩ : NumDF).cols ∧
    unnamedCol "UnnamedSensor" = true :=
  ⟨c10_unnamed_named_column_dropped.2.1 ["\"Time\",\"UnnamedSensor\"", "1,2"]
      ⟨["Time", "Time_s"], [[some 1, some 0]]⟩ (by decide)
      "UnnamedSensor" (by decide),
   by decide⟩

/-- C4 (confirmed): in either entry point, whenever a `Time` column is
present (so `Time_s` is derived), the final table's `Time_s` column is
elementwise `(Time[i] - min(Time over non-missing)) / 1000`, missing
`Time` cells give missing `Time_s` cells, every non-missing `Time_s` value
is nonnegative, and when any non-missing `Time` value exists the value `0`
is attained by `Time_s`. -/
theorem c4_time_seconds (doc : List String) (df : NumDF)
    (hload : loadAnalyze doc = .ok df ∨
      ∃ units, loadGUI doc = .ok (df, units))
    (ht : hasCol df.cols "Time" = true) :
    hasCol df.cols "Time_s" = true ∧
    colQ df "Time_s" = deriveTimeS (colQ df "Time") ∧
    (∀ i, (colQ df "Time").get? i = some none →
        (colQ df "Time_s").get? i = some none) ∧
    (∀ i v m, (colQ df "Time").get? i = some (some v) →
        colMin (colQ df "Time") = some m →
        (colQ df "Time_s").get? i = some (some ((v - m) / 1000))) ∧
    (∀ v, some v ∈ colQ df "Time_s" → 0 ≤ v) ∧
    ((∃ v, some v ∈ colQ df "Time") → some 0 ∈ colQ df "Time_s") := by
  have hshape : ∃ dfc : NumDF, aligned dfc ∧ df = addTimeS dfc := by
    rcases hload with h | ⟨units, h⟩
    · rcases loadAnalyze_decompose h with ⟨k, df0, df2, _, _, _, _, hal, rfl⟩
      exact ⟨coerceDF df2, hal, rfl⟩
    · rcases loadGUI_decompose h with ⟨k, df0, df2, units0, _, _, _, _, hal, rfl, _⟩
      exact ⟨coerceDF df2, hal, rfl⟩
  rcases hshape with ⟨dfc, hal, rfl⟩
  have htc : hasCol dfc.cols "Time" = true := by
    cases hb : hasCol dfc.cols "Time" with
    | true => rfl
    | false =>
      rw [addTimeS_of_no_time dfc hb] at ht
      rw [hb] at ht
      cases ht
  obtain ⟨hTime, hTimeS, hct, hcts⟩ := addTimeS_spec dfc hal htc
  rw [hTime, hTimeS]
  refine ⟨hcts, rfl, ?_, ?_, ?_, ?_⟩
  · intro i h
    exact deriveTimeS_get_none h
  · intro i v m h hm
    exact deriveTimeS_get_some h hm
  · intro v hv
    exact deriveTimeS_nonneg hv
  · rintro ⟨v, hv⟩
    exact deriveTimeS_attains_zero hv

unseal Rat.add Rat.sub Rat.mul Rat.inv in
/-- Witness for C4: a concrete load whose `Time` column is `[5, 7]` (after
the units row `ms` is dropped) yields `Time_s = [0, 1/500]`, whose minimum
0 is attained. -/
theorem c4_time_seconds_witness :
    colQ (⟨["Time", "Time_s"], [[some 5, some 0], [some 7, some (1 / 500)]]⟩ :
        NumDF) "Time_s"
      = deriveTimeS (colQ
          (⟨["Time", "Time_s"], [[some 5, some 0], [some 7, some (1 / 500)]]⟩ :
            NumDF) "Time") ∧
    some 0 ∈ colQ
      (⟨["Time", "Time_s"], [[some 5, some 0], [some 7, some (1 / 500)]]⟩ :
        NumDF) "Time_s" := by
  have h := c4_time_seconds ["\"Time\"", "ms", "5", "7"]
    ⟨["Time", "Time_s"], [[some 5, some 0], [some 7, some (1 / 500)]]⟩
    (Or.inl (by decide)) (by decide)
  exact ⟨h.2.1, h.2.2.2.2.2 ⟨5, by decide⟩⟩

/-- C5 (corrected, amended): the source only tests for the presence of a
`Time` column — whenever `Time` is among the filtered columns the derived
`Time_s` column is added even if `Time` has zero non-missing values (all
of its entries are then missing); only when `Time` is absent is the
derivation skipped, the coerced table being returned unchanged. -/
theorem c5_derivation_amended (doc : List String) (df : NumDF)
    (hload : loadAnalyze doc = .ok df ∨
      ∃ units, loadGUI doc = .ok (df, units)) :
    (∃ dfc : NumDF, df = addTimeS dfc ∧
        (hasCol dfc.cols "Time" = false → df = dfc)) ∧
    (hasCol df.cols "Time" = true →
        hasCol df.cols "Time_s" = true ∧
        (colMin (colQ df "Time") = none →
          ∀ x ∈ colQ df "Time_s", x = none)) := by
  have hshape : ∃ dfc : NumDF, aligned dfc ∧ df = addTimeS dfc := by
    rcases hload with h | ⟨units, h⟩
    · rcases loadAnalyze_decompose h with ⟨k, df0, df2, _, _, _, _, hal, rfl⟩
      exact ⟨coerceDF df2, hal, rfl⟩
    · rcases loadGUI_decompose h with ⟨k, df0, df2, units0, _, _, _, _, hal, rfl, _⟩
      exact ⟨coerceDF df2, hal, rfl⟩
  rcases hshape with ⟨dfc, hal, rfl⟩
  constructor
  · exact ⟨dfc, rfl, fun hb => addTimeS_of_no_time dfc hb⟩
  · intro ht
    have htc : hasCol dfc.cols "Time" = true := by
      cases hb : hasCol dfc.cols "Time" with
      | true => rfl
      | false =>
        rw [addTimeS_of_no_time dfc hb] at ht
        rw [hb] at ht
        cases ht
    obtain ⟨hTime, hTimeS, _, hcts⟩ := addTimeS_spec dfc hal htc
    refine ⟨hcts, ?_⟩
    intro hmin x hx
    rw [hTimeS] at hx
    rw [hTime] at hmin
    exact deriveTimeS_all_none hmin x hx

/-- Witness for C5 (amended): a load whose `Time` column is entirely
missing still carries a `Time_s` column. -/
theorem c5_derivation_amended_witness :
    hasCol (⟨["Time", "Time_s"], [[none, none]]⟩ : NumDF).cols "Time_s"
      = true :=
  ((c5_derivation_amended ["\"Time\"", "w", "x"]
      ⟨["Time", "Time_s"], [[none, none]]⟩ (Or.inl (by decide))).2
    (by decide)).1

/-- Counterexample for C5: in the document whose data rows are `abc` and
`xyz`, the first row is consumed as the units row and the remaining `Time`
column has zero non-missing values after coercion — yet the result still
contains a `Time_s` column (with every entry missing), contradicting
"time derivation is skipped and the result contains no Time_s column at
all". -/
theorem c5_counterexample :
    loadAnalyze ["\"Time\"", "abc", "xyz"]
      = .ok ⟨["Time", "Time_s"], [[none, none]]⟩ ∧
    colQ (⟨["Time", "Time_s"], [[none, none]]⟩ : NumDF) "Time" = [none] ∧
    hasCol (⟨["Time", "Time_s"], [[none, none]]⟩ : NumDF).cols "Time_s"
      = true := by
  refine ⟨by decide, by decide, by decide⟩

/-- C1 (corrected, amended): the two entry points disagree, and neither
implements "dropped iff the first row's Time cell fails numeric parsing".
In `analyze_dashdaq.py` the first row after the header is excluded iff its
`Time` cell is stored as a Python string — which happens iff that raw
field is not an NA token and some non-NA field of the whole raw `Time`
column fails numeric parsing (pandas infers dtypes per column, not per
cell).  In `dashdaq_gui.py` the first row after the header is always
excluded whenever a `Time` column is present, regardless of parsing. -/
theorem c1_units_row_amended (doc : List String) (k : Nat) (df0 : DF CellVal)
    (hf : findHeader doc = some k) (hr : readCSV (doc.drop k) = .ok df0) :
    (∀ c, loc0 (dropUnnamed df0) "Time" = some c →
        loadAnalyze doc = .ok (addTimeS (coerceDF
          (if isTxtCell c then dropRow0 (dropUnnamed df0)
           else dropUnnamed df0)))) ∧
    (∀ (col : List String) (s : String), s ∈ col →
        (isTxtCell (inferCell (colMode col) s) = true ↔
          (isNA s = false ∧ ∃ c ∈ col, isNA c = false ∧ parseNum c = none))) ∧
    (hasCol (dropUnnamed df0).cols "Time" = true →
        ∀ r0 rest, (dropUnnamed df0).rows = r0 :: rest →
        ∃ out, loadGUI doc = .ok out ∧
          out.1 = addTimeS (coerceDF ⟨(dropUnnamed df0).cols, rest⟩)) := by
  refine ⟨?_, ?_, ?_⟩
  · intro c hc
    rw [loadAnalyze_of_header hf]
    unfold loadRegionA
    rw [hr]
    show (match unitsRowA (dropUnnamed df0) with
      | .error e => (.error e : Except LoadErr NumDF)
      | .ok d => .ok (addTimeS (coerceDF d))) = _
    rw [unitsRowA_eq_of_loc0 hc]
  · intro col s hs
    exact inferCell_txt_iff col s hs
  · intro ht r0 rest hrows
    have hg : unitsRowG (dropUnnamed df0) =
        .ok (⟨(dropUnnamed df0).cols, rest⟩,
          (dropUnnamed df0).cols.map (fun c2 =>
            (c2, pyStr ((rowCell (dropUnnamed df0).cols r0 c2).getD .na)))) := by
      unfold unitsRowG
      rw [if_pos ht, hrows]
    refine ⟨(addTimeS (coerceDF ⟨(dropUnnamed df0).cols, rest⟩),
      dictSet ((dropUnnamed df0).cols.map (fun c2 =>
        (c2, pyStr ((rowCell (dropUnnamed df0).cols r0 c2).getD .na))))
        "Time_s" "s"), ?_, rfl⟩
    rw [loadGUI_of_header hf]
    unfold loadRegionG
    rw [hr]
    show (match unitsRowG (dropUnnamed df0) with
      | .error e =>
          (.error e : Except LoadErr (NumDF × List (String × String)))
      | .ok (d2, u0) =>
          if hasCol (coerceDF d2).cols "Time" = true then
            .ok (addTimeS (coerceDF d2), dictSet u0 "Time_s" "s")
          else .ok (coerceDF d2, u0)) = _
    rw [hg]
    show (if hasCol (coerceDF ⟨(dropUnnamed df0).cols, rest⟩).cols "Time"
          = true then
        (Except.ok (addTimeS (coerceDF ⟨(dropUnnamed df0).cols, rest⟩),
          dictSet ((dropUnnamed df0).cols.map (fun c2 =>
            (c2, pyStr ((rowCell (dropUnnamed df0).cols r0 c2).getD .na))))
            "Time_s" "s") : Except LoadErr (NumDF × List (String × String)))
      else .ok (coerceDF ⟨(dropUnnamed df0).cols, rest⟩,
        (dropUnnamed df0).cols.map (fun c2 =>
          (c2, pyStr ((rowCell (dropUnnamed df0).cols r0 c2).getD .na))))) = _
    rw [if_pos (show hasCol
      (coerceDF ⟨(dropUnnamed df0).cols, rest⟩).cols "Time" = true from ht)]

unseal Rat.add Rat.sub Rat.mul Rat.inv in
/-- Witness for C1 (amended): with a purely numeric first row, the
analysis entry point keeps it (`isTxtCell` is false on the int cell `7`),
and the GUI entry point, on the same shape of input, drops it. -/
theorem c1_units_row_amended_witness :
    loadAnalyze ["\"Time\"", "7"] =
      .ok (addTimeS (coerceDF
        (if isTxtCell (.intv 7) then
          dropRow0 (dropUnnamed ⟨["Time"], [[.intv 7]]⟩)
         else dropUnnamed ⟨["Time"], [[.intv 7]]⟩))) :=
  (c1_units_row_amended ["\"Time\"", "7"] 0 ⟨["Time"], [[.intv 7]]⟩
    (by decide) (by decide)).1 (.intv 7) (by decide)

unseal Rat.add Rat.sub Rat.mul Rat.inv in
/-- Counterexample for C1: in `dashdaq_gui.py`, the document whose rows
after the header are `5` and `7` has a first row whose `Time` cell parses
as a number (`parseNum "5" = some 5`), yet that row is dropped: the
returned table has a single row, built from `7` alone, and the "units"
map records the stringified sample `5`.  The claim "when the first row's
Time cell parses as a number, that row is kept" is therefore false for
this entry point. -/
theorem c1_counterexample :
    loadGUI ["\"Time\"", "5", "7"]
      = .ok (⟨["Time", "Time_s"], [[some 7, some 0]]⟩,
             [("Time", "5"), ("Time_s", "s")]) ∧
    parseNum "5" = some 5 := by
  refine ⟨by decide, by decide⟩

/-- C2 (corrected, amended): `dashdaq_gui.py` builds the units map
whenever a `Time` column is present, with no numeric test at all: every
filtered column is mapped to the Python `str()` of its first-row cell —
the literal cell text exactly when that cell is stored as text — and
`Time_s ↦ "s"` is then added (overwriting a column literally named
`Time_s`).  When `Time` is absent the units map is empty.  In particular
a map with stringified numeric entries is produced even when no units row
is present. -/
theorem c2_units_map_amended (doc : List String) (k : Nat) (df0 : DF CellVal)
    (hf : findHeader doc = some k) (hr : readCSV (doc.drop k) = .ok df0) :
    (hasCol (dropUnnamed df0).cols "Time" = false →
        ∀ df units, loadGUI doc = .ok (df, units) → units = []) ∧
    (hasCol (dropUnnamed df0).cols "Time" = true →
        ∀ r0 rest, (dropUnnamed df0).rows = r0 :: rest →
        ∀ df units, loadGUI doc = .ok (df, units) →
          units = dictSet ((dropUnnamed df0).cols.map (fun c =>
            (c, pyStr ((rowCell (dropUnnamed df0).cols r0 c).getD .na))))
            "Time_s" "s") ∧
    (∀ s, pyStr (.txt s) = s) := by
  refine ⟨?_, ?_, fun s => rfl⟩
  · intro ht df units hload
    have hg : unitsRowG (dropUnnamed df0) = .ok (dropUnnamed df0, []) := by
      unfold unitsRowG
      rw [if_neg (by simp [ht])]
    have hcomp : loadGUI doc = .ok (coerceDF (dropUnnamed df0), []) := by
      rw [loadGUI_of_header hf]
      unfold loadRegionG
      rw [hr]
      show (match unitsRowG (dropUnnamed df0) with
        | .error e =>
            (.error e : Except LoadErr (NumDF × List (String × String)))
        | .ok (d2, u0) =>
            if hasCol (coerceDF d2).cols "Time" = true then
              .ok (addTimeS (coerceDF d2), dictSet u0 "Time_s" "s")
            else .ok (coerceDF d2, u0)) = _
      rw [hg]
      show (if hasCol (coerceDF (dropUnnamed df0)).cols "Time" = true then
          (Except.ok (addTimeS (coerceDF (dropUnnamed df0)),
            dictSet [] "Time_s" "s") :
              Except LoadErr (NumDF × List (String × String)))
        else .ok (coerceDF (dropUnnamed df0), [])) = _
      rw [if_neg (show ¬ hasCol (coerceDF (dropUnnamed df0)).cols "Time"
        = true by rw [coerceDF_cols]; simp [ht])]
    rw [hload] at hcomp
    exact congrArg Prod.snd (Except.ok.inj hcomp)
  · intro ht r0 rest hrows df units hload
    have hg : unitsRowG (dropUnnamed df0) =
        .ok (⟨(dropUnnamed df0).cols, rest⟩,
          (dropUnnamed df0).cols.map (fun c2 =>
            (c2, pyStr ((rowCell (dropUnnamed df0).cols r0 c2).getD .na)))) := by
      unfold unitsRowG
      rw [if_pos ht, hrows]
    have hcomp : loadGUI doc =
        .ok (addTimeS (coerceDF ⟨(dropUnnamed df0).cols, rest⟩),
          dictSet ((dropUnnamed df0).cols.map (fun c2 =>
            (c2, pyStr ((rowCell (dropUnnamed df0).cols r0 c2).getD .na))))
            "Time_s" "s") := by
      rw [loadGUI_of_header hf]
      unfold loadRegionG
      rw [hr]
      show (match unitsRowG (dropUnnamed df0) with
        | .error e =>
            (.error e : Except LoadErr (NumDF × List (String × String)))
        | .ok (d2, u0) =>
            if hasCol (coerceDF d2).cols "Time" = true then
              .ok (addTimeS (coerceDF d2), dictSet u0 "Time_s" "s")
            else .ok (coerceDF d2, u0)) = _
      rw [hg]
      show (if hasCol (coerceDF ⟨(dropUnnamed df0).cols, rest⟩).cols "Time"
            = true then
          (Except.ok (addTimeS (coerceDF ⟨(dropUnnamed df0).cols, rest⟩),
            dictSet ((dropUnnamed df0).cols.map (fun c2 =>
              (c2, pyStr ((rowCell (dropUnnamed df0).cols r0 c2).getD .na))))
              "Time_s" "s") : Except LoadErr (NumDF × List (String × String)))
        else .ok (coerceDF ⟨(dropUnnamed df0).cols, rest⟩,
          (dropUnnamed df0).cols.map (fun c2 =>
            (c2, pyStr ((rowCell (dropUnnamed df0).cols r0 c2).getD .na))))) = _
      rw [if_pos (show hasCol
        (coerceDF ⟨(dropUnnamed df0).cols, rest⟩).cols "Time" = true from ht)]
    rw [hload] at hcomp
    exact congrArg Prod.snd (Except.ok.inj hcomp)

unseal Rat.add Rat.sub Rat.mul Rat.inv in
/-- Witness for C2 (amended): a genuine units row `ms` yields the map
`Time ↦ "ms", Time_s ↦ "s"`, through the dict-update semantics. -/
theorem c2_units_map_amended_witness :
    [("Time", "ms"), ("Time_s", "s")] =
      dictSet ((dropUnnamed (⟨["Time"], [[CellVal.txt "ms"], [CellVal.txt "5"]]⟩ :
          DF CellVal)).cols.map
        (fun c => (c, pyStr ((rowCell
          (dropUnnamed (⟨["Time"], [[CellVal.txt "ms"], [CellVal.txt "5"]]⟩ :
            DF CellVal)).cols
          [CellVal.txt "ms"] c).getD .na)))) "Time_s" "s" :=
  (c2_units_map_amended ["\"Time\"", "ms", "5"] 0
      ⟨["Time"], [[CellVal.txt "ms"], [CellVal.txt "5"]]⟩
      (by decide) (by decide)).2.1
    (by decide) [CellVal.txt "ms"] [[CellVal.txt "5"]] (by decide)
    ⟨["Time", "Time_s"], [[some 5, some 0]]⟩
    [("Time", "ms"), ("Time_s", "s")] (by decide)

unseal Rat.add Rat.sub Rat.mul Rat.inv in
/-- Counterexample for C2: with first data row `5,6` (numeric `Time`
cell), no units row is present, yet the returned units map contains the
entry `("Speed", "6")` — stringified first-row samples — contradicting
"the units map contains no entries other than the synthetic Time_s ↦ s". -/
theorem c2_counterexample :
    loadGUI ["\"Time\",\"Speed\"", "5,6", "7,8"]
      = .ok (⟨["Time", "Speed", "Time_s"], [[some 7, some 8, some 0]]⟩,
             [("Time", "5"), ("Speed", "6"), ("Time_s", "s")]) ∧
    parseNum "5" = some 5 := by
  refine ⟨by decide, by decide⟩

/-- C9 (confirmed): the viewer's time axis is `Time_s` when present and
`Time` otherwise; when both entered bounds parse numerically they are
swapped if reversed, replaced by the full data extent when the requested
interval lies entirely outside it, and clamped to the extent otherwise;
and the row filter keeps exactly the rows whose time cell `t` satisfies
`start ≤ t ≤ end` inclusively (missing time cells are excluded). -/
theorem c9_time_range_selection :
    (∀ df : NumDF,
        (hasCol df.cols "Time_s" = true → timeColumn df = some "Time_s") ∧
        (hasCol df.cols "Time_s" = false → hasCol df.cols "Time" = true →
          timeColumn df = some "Time")) ∧
    (∀ (df : NumDF) (startStr endStr tc : String)
        (fullMin fullMax st0 en0 : ℚ),
        timeColumn df = some tc →
        foldMin (dropna (colQ df tc)) = some fullMin →
        foldMax (dropna (colQ df tc)) = some fullMax →
        (pyTrim startStr).isEmpty = false → (pyTrim endStr).isEmpty = false →
        parseNum startStr = some st0 → parseNum endStr = some en0 →
        getTimeRange df startStr endStr =
          some (if max st0 en0 < fullMin ∨ min st0 en0 > fullMax
                then (fullMin, fullMax)
                else (max (min st0 en0) fullMin,
                      min (max st0 en0) fullMax))) ∧
    (∀ (df : NumDF) (tc : String) (a b : ℚ) (r : List (Option ℚ)),
        r ∈ (sliceByTime df tc a b).rows ↔
          r ∈ df.rows ∧ ∃ v, rowCell df.cols r tc = some (some v) ∧
            a ≤ v ∧ v ≤ b) := by
  refine ⟨?_, ?_, ?_⟩
  · intro df
    constructor
    · intro h
      unfold timeColumn
      rw [if_pos h]
    · intro h1 h2
      unfold timeColumn
      rw [if_neg (by simp [h1]), if_pos h2]
  · intro df startStr endStr tc fullMin fullMax st0 en0 htc hmin hmax hs he
      hps hpe
    rw [getTimeRange_eq htc hmin hmax, clampRange_eq hs he hps hpe]
  · intro df tc a b r
    exact mem_sliceByTime

unseal Rat.add Rat.sub Rat.mul Rat.inv in
/-- Witness for C9: on `Time_s` data `[1, 3]` with entered bounds
start = 5, end = 2, the bounds are swapped to `[2, 5]` and clamped to the
extent, giving `(2, 3)`. -/
theorem c9_time_range_selection_witness :
    getTimeRange (⟨["Time_s"], [[some 1], [some 3]]⟩ : NumDF) "5" "2"
      = some (2, 3) := by
  have h := c9_time_range_selection.2.1
    (⟨["Time_s"], [[some 1], [some 3]]⟩ : NumDF) "5" "2" "Time_s"
    1 3 5 2 (by decide) (by decide) (by decide) (by decide) (by decide)
    (by decide) (by decide)
  exact h.trans (by decide)
